import Mathlib

/-!
Shallow embedding of the subtitle ingestion engine of `serika-dev-player`
(`src/utils/subtitleParser.ts`), together with proofs settling the frozen
claims about it.

Modelling conventions:
* JavaScript strings are embedded as `List Char` (`Str`).
* JavaScript numbers are embedded as `JSNum`: either `nan` or an exact
  rational.  All numeric literals occurring in the source are decimal, so
  rationals model them exactly; binary-float rounding is outside the scope
  of this embedding.  `Number(...)`/`parseFloat(...)` are modelled on their
  decimal grammar (sign, digits, fraction, exponent); the exotic inputs
  (`"Infinity"`, hex literals) that the subtitle engine never receives are
  mapped to `nan`.
* JavaScript `Map` objects and attribute records are embedded as ordered
  association lists with overwrite-in-place `set` (`JMap`), matching the
  insertion-order and last-write-wins semantics of `Map.prototype.set` and
  of object property assignment.
* The handful of regular expressions in the source are each embedded as a
  dedicated scanner implementing exactly the leftmost-match backtracking
  behaviour of that pattern.
* Loops that repeatedly `exec` a global regex and `push` results are
  embedded as "extract the match list, then fold", which is observably
  equivalent.  Scanners that advance by more than one character carry a
  fuel argument (always instantiated with more than the input length) so
  that every definition is structurally recursive and kernel-evaluable.
-/

abbrev Str := List Char

/-- JavaScript whitespace as used by `String.prototype.trim` and the `\s`
regex class (ASCII whitespace plus NBSP and the BOM). -/
def wsChar (c : Char) : Bool :=
  c = ' ' || c = '\t' || c = '\n' || c = '\r' || c = '\x0b' || c = '\x0c' ||
  c = ' ' || c = '﻿'

/-- The `\w` word characters. -/
def wordChar (c : Char) : Bool :=
  ('a' ≤ c && c ≤ 'z') || ('A' ≤ c && c ≤ 'Z') || ('0' ≤ c && c ≤ '9') || c = '_'

def digitChar (c : Char) : Bool := '0' ≤ c && c ≤ '9'

def hexChar (c : Char) : Bool :=
  digitChar c || ('a' ≤ c && c ≤ 'f') || ('A' ≤ c && c ≤ 'F')

def alnumChar (c : Char) : Bool :=
  ('a' ≤ c && c ≤ 'z') || ('A' ≤ c && c ≤ 'Z') || digitChar c

/-- ASCII lower-casing, as `String.prototype.toLowerCase` acts on the ASCII
inputs this engine manipulates. -/
def lowerChar (c : Char) : Char :=
  if 'A' ≤ c && c ≤ 'Z' then Char.ofNat (c.toNat + 32) else c

def strToLower (s : Str) : Str := s.map lowerChar

/-- The `String.prototype.trim`: drop leading and trailing whitespace. -/
def trimLeftStr (s : Str) : Str := s.dropWhile wsChar

def trimRightStr (s : Str) : Str := (trimLeftStr s.reverse).reverse

def trimStr (s : Str) : Str := trimLeftStr (trimRightStr s)

/-- The `String.prototype.includes` for a literal pattern. -/
def strIncludes (pat : Str) : Str → Bool
  | [] => pat.isPrefixOf ([] : Str)
  | c :: rest => pat.isPrefixOf (c :: rest) || strIncludes pat rest

/-- The `String.prototype.endsWith` for a literal pattern. -/
def strEndsWith (s pat : Str) : Bool := pat.reverse.isPrefixOf s.reverse

/-- The `String.prototype.split` with a single-character separator. -/
def splitOnChar (sep : Char) : Str → List Str
  | [] => [[]]
  | c :: rest =>
    let tail := splitOnChar sep rest
    if c = sep then [] :: tail
    else match tail with
      | [] => [[c]]
      | piece :: more => (c :: piece) :: more

/-- The `String.prototype.replace` with a literal pattern (first occurrence only). -/
def replaceFirst (pat repl : Str) : Str → Str
  | [] => []
  | c :: rest =>
    if pat ≠ [] && pat.isPrefixOf (c :: rest) then
      repl ++ (c :: rest).drop pat.length
    else c :: replaceFirst pat repl rest

/-- The `String.prototype.replace` with a `/g` literal pattern (all occurrences);
fuelled because a match consumes `pat.length` characters at once. -/
def replaceAllFuel (pat repl : Str) : Nat → Str → Str
  | 0, s => s
  | _ + 1, [] => []
  | fuel + 1, c :: rest =>
    if pat ≠ [] && pat.isPrefixOf (c :: rest) then
      repl ++ replaceAllFuel pat repl fuel ((c :: rest).drop pat.length)
    else c :: replaceAllFuel pat repl fuel rest

def replaceAll (pat repl : Str) (s : Str) : Str :=
  replaceAllFuel pat repl (s.length + 1) s

/- ## Kernel-computable rational arithmetic

The `Rat` arithmetic from Batteries is `@[irreducible]`, so concrete runs of
the embedded parsers could not be checked by `decide`/`rfl`.  These wrappers
compute the same operations through the reducible smart constructors
`mkRat`/`Rat.divInt`; the `q*_eq` lemmas identify them with the standard
operations for use in symbolic proofs. -/

def qadd (a b : ℚ) : ℚ := mkRat (a.num * b.den + b.num * a.den) (a.den * b.den)

def qmul (a b : ℚ) : ℚ := mkRat (a.num * b.num) (a.den * b.den)

def qdiv (a b : ℚ) : ℚ := Rat.divInt (a.num * b.den) (b.num * a.den)

theorem qadd_eq (a b : ℚ) : qadd a b = a + b := by
  have ha : ((a.den : ℤ)) ≠ 0 := Int.ofNat_ne_zero.2 a.den_nz
  have hb : ((b.den : ℤ)) ≠ 0 := Int.ofNat_ne_zero.2 b.den_nz
  rw [qadd, Rat.mkRat_eq_divInt]
  conv_rhs => rw [← Rat.num_divInt_den a, ← Rat.num_divInt_den b,
    Rat.divInt_add_divInt _ _ ha hb]
  push_cast
  rfl

theorem qmul_eq (a b : ℚ) : qmul a b = a * b := by
  rw [qmul, Rat.mkRat_eq_divInt]
  conv_rhs => rw [← Rat.num_divInt_den a, ← Rat.num_divInt_den b,
    Rat.divInt_mul_divInt']
  push_cast
  rfl

theorem qdiv_eq (a b : ℚ) : qdiv a b = a / b := by
  rw [qdiv, Rat.div_def', Int.mul_comm b.num ((a.den : ℤ))]

/- ## JavaScript numbers -/

inductive JSNum where
  | nan : JSNum
  | num (q : ℚ) : JSNum
deriving DecidableEq, Repr

namespace JSNum

def add : JSNum → JSNum → JSNum
  | num a, num b => num (qadd a b)
  | _, _ => nan

def mul : JSNum → JSNum → JSNum
  | num a, num b => num (qmul a b)
  | _, _ => nan

/-- Division; the engine only divides by the nonzero constants 100 and 1000,
so the `b = 0` branch (JS `Infinity`) is unreachable and mapped to `nan`. -/
def div : JSNum → JSNum → JSNum
  | num a, num b => if b = 0 then nan else num (qdiv a b)
  | _, _ => nan

def neg : JSNum → JSNum
  | num a => num (-a)
  | nan => nan

instance : Add JSNum := ⟨add⟩
instance : Mul JSNum := ⟨mul⟩
instance : Neg JSNum := ⟨neg⟩

/-- JS `<=` (false whenever either side is NaN). -/
def leb : JSNum → JSNum → Bool
  | num a, num b => a ≤ b
  | _, _ => false

/-- JS `>=` (false whenever either side is NaN). -/
def geb : JSNum → JSNum → Bool
  | num a, num b => b ≤ a
  | _, _ => false

/-- JS `<` (false whenever either side is NaN). -/
def ltb : JSNum → JSNum → Bool
  | num a, num b => a < b
  | _, _ => false

/-- JS truthiness of a number: `0` and `NaN` are falsy. -/
def truthy : JSNum → Bool
  | num a => a ≠ 0
  | nan => false

def isNaNb : JSNum → Bool
  | nan => true
  | num _ => false

end JSNum

/- ## Parsing numbers from strings -/

def natOfDigits (s : Str) : ℕ :=
  s.foldl (fun acc c => acc * 10 + (c.toNat - ('0').toNat)) 0

/-- Value of a fractional digit block (the digits after the decimal point). -/
def fracOfDigits (s : Str) : ℚ :=
  mkRat (natOfDigits s) (10 ^ s.length)

/-- Parse the longest decimal prefix `digits[.digits]` or `.digits`;
returns the value and the unconsumed remainder. -/
def parseDecPrefix (s : Str) : Option (ℚ × Str) :=
  let ip := s.takeWhile digitChar
  let r1 := s.dropWhile digitChar
  match ip, r1 with
  | [], '.' :: r2 =>
    let fp := r2.takeWhile digitChar
    if fp = [] then none
    else some (fracOfDigits fp, r2.dropWhile digitChar)
  | [], _ => none
  | _, '.' :: r2 =>
    some (qadd (natOfDigits ip : ℚ) (fracOfDigits (r2.takeWhile digitChar)),
      r2.dropWhile digitChar)
  | _, _ => some ((natOfDigits ip : ℚ), r1)

/-- Consume an optional exponent part `[eE][+-]?digits`; if the digits are
missing the `e` is left unconsumed (as `parseFloat` does). -/
def parseExpPart (v : ℚ) (s : Str) : ℚ × Str :=
  match s with
  | e :: rest =>
    if e = 'e' || e = 'E' then
      let signed : Bool × Str :=
        match rest with
        | '+' :: r => (false, r)
        | '-' :: r => (true, r)
        | r => (false, r)
      let ds := signed.2.takeWhile digitChar
      if ds = [] then (v, s)
      else
        let k := natOfDigits ds
        let v2 := if signed.1 then qdiv v ((10 ^ k : ℕ) : ℚ)
          else qmul v ((10 ^ k : ℕ) : ℚ)
        (v2, signed.2.dropWhile digitChar)
    else (v, s)
  | [] => (v, s)

/-- Optional sign; returns (negate?, rest). -/
def parseSign : Str → Bool × Str
  | [] => (false, [])
  | c :: r =>
    if c = '+' then (false, r)
    else if c = '-' then (true, r)
    else (false, c :: r)

/-- JS `Number(string)` on the decimal grammar: whitespace-trimmed, empty
string is `0`, otherwise the whole string must be a signed decimal numeral
(with optional exponent), else `NaN`. -/
def jsNumber (s : Str) : JSNum :=
  let t := trimStr s
  if t = [] then JSNum.num 0
  else
    let sg := parseSign t
    match parseDecPrefix sg.2 with
    | none => JSNum.nan
    | some (v, rest) =>
      let vr := parseExpPart v rest
      if vr.2 = [] then JSNum.num (if sg.1 then -vr.1 else vr.1)
      else JSNum.nan

/-- JS `parseFloat(string)`: skip leading whitespace, parse the longest
numeric prefix, `NaN` if there is none. -/
def jsParseFloat (s : Str) : JSNum :=
  let t := s.dropWhile wsChar
  let sg := parseSign t
  match parseDecPrefix sg.2 with
  | none => JSNum.nan
  | some (v, rest) =>
    let vr := parseExpPart v rest
    JSNum.num (if sg.1 then -vr.1 else vr.1)

/- ## Printing numbers (template-literal interpolation) -/

def digitOfNat (d : ℕ) : Char := Char.ofNat (('0').toNat + d)

def natToStrAux : ℕ → ℕ → Str
  | 0, _ => []
  | fuel + 1, n =>
    if n < 10 then [digitOfNat n]
    else natToStrAux fuel (n / 10) ++ [digitOfNat (n % 10)]

def natToStr (n : ℕ) : Str := natToStrAux (n + 1) n

/-- Count and strip the factors `p` of `n` (fuelled). -/
def stripFactor (p : ℕ) : ℕ → ℕ → ℕ × ℕ
  | 0, n => (0, n)
  | fuel + 1, n =>
    if n % p = 0 && n ≠ 0 && 1 < p then
      let r := stripFactor p fuel (n / p)
      (r.1 + 1, r.2)
    else (0, n)

/-- JS number-to-string conversion (`${n}`), for the values reachable in
this engine: `NaN` prints as `"NaN"`, and every other reachable value is a
rational with a power-of-ten denominator, printed as its exact minimal
decimal expansion — which coincides with JS shortest round-trip printing on
these magnitudes.  (The final branch, for denominators that are not
10-smooth, is unreachable.)

First, the minimal decimal expansion of the non-negative rational `n / d`. -/
def posRatToStr (n d : ℕ) : Str :=
  let twos := stripFactor 2 d d
  let fives := stripFactor 5 twos.2 twos.2
  if fives.2 ≠ 1 then natToStr n ++ '/' :: natToStr d
  else
    let k := max twos.1 fives.1
    if k = 0 then natToStr n
    else
      let m := natToStr (n * 10 ^ k / d)
      let padded := List.replicate (k + 1 - m.length) '0' ++ m
      let ipart := padded.take (padded.length - k)
      let fpart := (padded.drop (padded.length - k)).reverse.dropWhile
        (fun c => c = '0') |>.reverse
      if fpart = [] then ipart else ipart ++ '.' :: fpart

def numToStr : JSNum → Str
  | JSNum.nan => ("NaN").toList
  | JSNum.num q =>
    if q < 0 then '-' :: posRatToStr (-q).num.natAbs (-q).den
    else posRatToStr q.num.natAbs q.den

/- ## JS `Map` / attribute records -/

def JMap (α : Type) : Type := List (Str × α)

namespace JMap

def empty {α : Type} : JMap α := []

def set {α : Type} : JMap α → Str → α → JMap α
  | [], k, v => [(k, v)]
  | (k', v') :: rest, k, v =>
    if k' = k then (k, v) :: rest else (k', v') :: set rest k v

def get? {α : Type} : JMap α → Str → Option α
  | [], _ => none
  | (k', v') :: rest, k => if k' = k then some v' else get? rest k

def size {α : Type} (m : JMap α) : ℕ := List.length m

instance {α : Type} [DecidableEq α] : DecidableEq (JMap α) :=
  inferInstanceAs (DecidableEq (List (Str × α)))

end JMap

/- ## Data model (`src/types.ts`)

Only the fields the subtitle engine ever writes are modelled; the remaining
optional CSS passthrough fields of `SubtitleStyle` (textShadow,
letterSpacing, opacity, position, top/left/right/bottom) are never set by
any code path embedded here. -/

structure SubtitleStyle where
  color : Option Str := none
  backgroundColor : Option Str := none
  fontFamily : Option Str := none
  fontSize : Option Str := none
  fontWeight : Option Str := none
  fontStyle : Option Str := none
  textDecoration : Option Str := none
  transform : Option Str := none
  display : Option Str := none
deriving DecidableEq, Repr

structure SubtitleSegment where
  text : Str
  style : Option SubtitleStyle := none
deriving DecidableEq, Repr

structure SubtitleCue where
  startTime : JSNum
  endTime : JSNum
  text : Str
  lines : List (List SubtitleSegment) := []
  alignment : Option Str := none
  verticalAlign : Option Str := none
  noBackground : Option Bool := none
deriving DecidableEq, Repr

/-- The `DEFAULT_STYLE` from subtitleParser.ts. -/
def DEFAULT_STYLE : SubtitleStyle :=
  { fontWeight := some (("normal").toList), fontStyle := some (("normal").toList) }

/- ## Shared helpers (bottom of subtitleParser.ts) -/

/-- The `splitWithLimit`: split on commas, capped at `expectedFields` values;
excess commas are rejoined into the last value. -/
def splitWithLimit (input : Str) (expectedFields : ℕ) : List Str :=
  let values := splitOnChar ',' input
  if values.length ≤ expectedFields then values.map trimStr
  else
    let head := (values.take (expectedFields - 1)).map trimStr
    let tail := trimStr (List.intercalate ([',']) (values.drop (expectedFields - 1)))
    head ++ [tail]

/-- The `readField`: value at the declared field's index (`undefined` on a
missing field name or an out-of-range index). -/
def readField (values fields : List Str) (fieldName : Str) : Option Str :=
  match List.findIdx? (fun f => f = fieldName) fields with
  | none => none
  | some i => values.get? i

/-- The `buildTextDecoration`. -/
def buildTextDecoration (underline strike : Bool) : Str :=
  let parts := [if underline then ("underline").toList else [],
    if strike then ("line-through").toList else []]
  trimStr (List.intercalate ([' ']) (parts.filter (fun p => !p.isEmpty)))

/-- The `isASSFlag`. -/
def isASSFlag (value : Option Str) : Bool :=
  value = some (("1").toList) || value = some (("-1").toList)

/-- The `toPx`. -/
def toPx (value : Option Str) : Option Str :=
  match value with
  | none => none
  | some v =>
    if v.isEmpty then none
    else match jsNumber v with
      | JSNum.nan => none
      | JSNum.num q => some (numToStr (JSNum.num q) ++ ("px").toList)

/-- The `assColorToCss`. -/
def assColorToCss (input : Option Str) : Option Str :=
  match input with
  | none => none
  | some i =>
    if i.isEmpty then none
    else
      let value := trimStr i
      if !(("&H").toList.isPrefixOf value) || !strEndsWith value (("&").toList)
      then none
      else
        let hex := (value.drop 2).dropLast
        let padded := List.replicate (6 - hex.length) '0' ++ hex
        let hex6 := padded.drop (padded.length - 6)
        let b := hex6.take 2
        let g := (hex6.drop 2).take 2
        let r := (hex6.drop 4).take 2
        '#' :: (r ++ g ++ b)

/-- The `decodeEntities` (the five standard entities, replaced in source order). -/
def decodeEntities (text : Str) : Str :=
  replaceAll (("&#39;").toList) (("'").toList)
    (replaceAll (("&quot;").toList) (("\"").toList)
      (replaceAll (("&amp;").toList) (("&").toList)
        (replaceAll (("&gt;").toList) ((">").toList)
          (replaceAll (("&lt;").toList) (("<").toList) text))))

/-- JS `Array.prototype.filter` with the index-and-array callback used by
`pruneLines`: keep a line iff it is non-empty or interior (`0 < index` and
`index < length - 1`). -/
def pruneIdxFilter (n : ℕ) (i : ℕ) : List (List SubtitleSegment) → List (List SubtitleSegment)
  | [] => []
  | l :: rest =>
    if l.length > 0 || (decide (0 < i) && decide (i < n - 1)) then
      l :: pruneIdxFilter n (i + 1) rest
    else pruneIdxFilter n (i + 1) rest

/-- The `pruneLines`: drop empty segments from every line, then drop empty
lines unless they are interior. -/
def pruneLines (lines : List (List SubtitleSegment)) : List (List SubtitleSegment) :=
  let cleaned := lines.map (fun line => line.filter (fun seg => seg.text.length > 0))
  pruneIdxFilter cleaned.length 0 cleaned

/-- Flattening of styled lines: segments concatenated with no separator,
lines joined by a newline (the `lines.map(line => ...).join('\n')` idiom). -/
def lineText (line : List SubtitleSegment) : Str := (line.map (fun s => s.text)).flatten

/-- The `Array.prototype.join('\n')`. -/
def joinNl : List Str → Str
  | [] => []
  | [a] => a
  | a :: b :: rest => a ++ '\n' :: joinNl (b :: rest)

def flattenLines (lines : List (List SubtitleSegment)) : Str :=
  joinNl (lines.map lineText)

/- ## Regex scanners

Each scanner implements the leftmost-match backtracking behaviour of one
regular expression from `subtitleParser.ts`. -/

/-- Backtracking for `/([^\s]+)\s*-->\s*([^\s]+)/` anchored at the current
position: try the longest group-1 candidate first (`k` = candidate length). -/
def arrowTryLen (s : Str) : ℕ → Option (Str × Str)
  | 0 => none
  | k + 1 =>
    let g1 := s.take (k + 1)
    let rest := (s.drop (k + 1)).dropWhile wsChar
    if ("-->").toList.isPrefixOf rest then
      let r3 := (rest.drop 3).dropWhile wsChar
      let g2 := r3.takeWhile (fun c => !wsChar c)
      if g2.isEmpty then arrowTryLen s k else some (g1, g2)
    else arrowTryLen s k

/-- Search for `/([^\s]+)\s*-->\s*([^\s]+)/` (the WebVTT/SRT time line). -/
def arrowSearch : Str → Option (Str × Str)
  | [] => none
  | c :: rest =>
    match arrowTryLen (c :: rest) ((c :: rest).takeWhile (fun x => !wsChar x)).length with
    | some r => some r
    | none => arrowSearch rest

/-- Match `/(\d+):(\d{2}):(\d{2})\.(\d{2})/` at the current position.
`\d+` is effectively possessive here because it is followed by `:`. -/
def assTimeTryAt (s : Str) : Option (Str × Str × Str × Str) :=
  let h := s.takeWhile digitChar
  if h.isEmpty then none
  else match s.drop h.length with
    | ':' :: a :: b :: ':' :: c :: d :: '.' :: e :: f :: _ =>
      if digitChar a && digitChar b && digitChar c && digitChar d &&
          digitChar e && digitChar f
      then some (h, [a, b], [c, d], [e, f]) else none
    | _ => none

def assTimeSearch : Str → Option (Str × Str × Str × Str)
  | [] => none
  | c :: rest =>
    match assTimeTryAt (c :: rest) with
    | some r => some r
    | none => assTimeSearch rest

/-- Search for `/\\an(\d+)/`; returns the digit group. -/
def anSearch : Str → Option Str
  | [] => none
  | c :: rest =>
    if c = '\\' then
      match rest with
      | 'a' :: 'n' :: r2 =>
        let ds := r2.takeWhile digitChar
        if ds.isEmpty then anSearch rest else some ds
      | _ => anSearch rest
    else anSearch rest

/-- The `\d+(?:\.\d+)?` at the current position; returns the matched text. -/
def decNumTok (s : Str) : Option Str :=
  let ds := s.takeWhile digitChar
  if ds.isEmpty then none
  else match s.drop ds.length with
    | '.' :: r2 =>
      let fs := r2.takeWhile digitChar
      if fs.isEmpty then some ds else some (ds ++ '.' :: fs)
    | _ => some ds

/-- Search for a literal followed by a (possibly signed) decimal number:
the shape of `/\\fs(\d+...)/`, `/\\frz(-?\d+...)/`, `/\\fscx(\d+...)/` etc. -/
def numAfterLit (lit : Str) (signed : Bool) : Str → Option Str
  | [] => none
  | c :: rest =>
    (if lit.isPrefixOf (c :: rest) then
      match signed, (c :: rest).drop lit.length with
      | true, '-' :: r2 => (decNumTok r2).map (fun d => '-' :: d)
      | _, r => decNumTok r
    else none).orElse (fun _ => numAfterLit lit signed rest)

/-- Search for `/\\c&H([0-9A-Fa-f]{6})&/`; returns the six hex digits. -/
def cColorSearch : Str → Option Str
  | [] => none
  | c :: rest =>
    (if ("\\c&H").toList.isPrefixOf (c :: rest) then
      match (c :: rest).drop 4 with
      | a :: b :: c2 :: d :: e :: f :: '&' :: _ =>
        if hexChar a && hexChar b && hexChar c2 && hexChar d &&
            hexChar e && hexChar f
        then some [a, b, c2, d, e, f] else none
      | _ => none
    else none).orElse (fun _ => cColorSearch rest)

/-- Test for `/\d{2}:\d{2}:\d{2},\d{3}/` (the SRT-timestamp signature used
by format auto-detection). -/
def srtTimePattern : Str → Bool
  | [] => false
  | x :: rest =>
    (match x :: rest with
     | a :: b :: ':' :: c :: d :: ':' :: e :: f :: ',' :: g :: h :: i :: _ =>
       digitChar a && digitChar b && digitChar c && digitChar d &&
       digitChar e && digitChar f && digitChar g && digitChar h && digitChar i
     | _ => false) || srtTimePattern rest

/-- The `/\[(v4\+? styles)\]/i.test(line)`. -/
def isStylesHeader (line : Str) : Bool :=
  strIncludes (("[v4 styles]").toList) (strToLower line) ||
  strIncludes (("[v4+ styles]").toList) (strToLower line)

/-- The `/^\[events\]/i.test(line)`. -/
def isEventsHeader (line : Str) : Bool :=
  ("[events]").toList.isPrefixOf (strToLower line)

/-- One attempt of `/(\w+)=("([^"]*)"|'([^']*)')/` at the current position;
returns (name, value, remainder after the match). -/
def attrTryAt (s : Str) : Option (Str × Str × Str) :=
  let name := s.takeWhile wordChar
  if name.isEmpty then none
  else match s.drop name.length with
    | '=' :: '"' :: r =>
      let v := r.takeWhile (fun c => c ≠ '"')
      (match r.drop v.length with
       | '"' :: rr => some (name, v, rr)
       | _ => none)
    | '=' :: '\'' :: r =>
      let v := r.takeWhile (fun c => c ≠ '\'')
      (match r.drop v.length with
       | '\'' :: rr => some (name, v, rr)
       | _ => none)
    | _ => none

/-- The `attrRegex.exec` loop of `parseXmlAttributes` (object property
assignment is `JMap.set`, so later duplicates overwrite earlier ones). -/
def attrScan : ℕ → Str → JMap Str → JMap Str
  | 0, _, m => m
  | _ + 1, [], m => m
  | fuel + 1, c :: rest, m =>
    match attrTryAt (c :: rest) with
    | some (name, value, remaining) => attrScan fuel remaining (m.set name value)
    | none => attrScan fuel rest m

/-- The `/\bclass=/.test(attributesText)`: `class=` preceded by a word boundary. -/
def hasClassEqAux (prev : Option Char) : Str → Bool
  | [] => false
  | c :: rest =>
    (("class=").toList.isPrefixOf (c :: rest) &&
      (match prev with
       | none => true
       | some p => !wordChar p)) ||
    hasClassEqAux (some c) rest

def hasClassEq (s : Str) : Bool := hasClassEqAux none s

/-- Search for `/\.([^\s>]+)/`; returns the group. -/
def dotClassSearch : Str → Option Str
  | [] => none
  | c :: rest =>
    if c = '.' then
      let tok := rest.takeWhile (fun x => !wsChar x && x ≠ '>')
      if tok.isEmpty then dotClassSearch rest else some tok
    else dotClassSearch rest

/-- The `parseXmlAttributes`. -/
def parseXmlAttributes (attributesText : Str) : JMap Str :=
  let attrs := attrScan (attributesText.length + 1) attributesText JMap.empty
  if !hasClassEq attributesText then
    match dotClassSearch attributesText with
    | some cls => attrs.set (("class").toList) cls
    | none => attrs
  else attrs

/- ## Splitters keeping regex-captured separators, and global replacers -/

/-- First match of `/\{[^}]*\}/` as (before, match, after). -/
def braceFind : Str → Option (Str × Str × Str)
  | [] => none
  | c :: rest =>
    if c = '{' then
      let inner := rest.takeWhile (fun x => x ≠ '}')
      match rest.drop inner.length with
      | '}' :: rr => some ([], c :: inner ++ ['}'], rr)
      | _ => (braceFind rest).map (fun r => (c :: r.1, r.2.1, r.2.2))
    else (braceFind rest).map (fun r => (c :: r.1, r.2.1, r.2.2))

/-- The `split(/(\{[^}]*\})/g)`: pieces interleaved with the captured overrides
(JS split keeps empty pieces; the callers filter them). -/
def splitKeepBraces : ℕ → Str → List Str
  | 0, s => [s]
  | fuel + 1, s =>
    match braceFind s with
    | none => [s]
    | some (before, tok, after) => before :: tok :: splitKeepBraces fuel after

/-- First match of `/<[^>]+>/` as (before, match, after). -/
def tagFind : Str → Option (Str × Str × Str)
  | [] => none
  | c :: rest =>
    if c = '<' then
      let inner := rest.takeWhile (fun x => x ≠ '>')
      (if inner.isEmpty then none
       else match rest.drop inner.length with
        | '>' :: rr => some (([] : Str), c :: inner ++ ['>'], rr)
        | _ => none).orElse
        (fun _ => (tagFind rest).map (fun r => (c :: r.1, r.2.1, r.2.2)))
    else (tagFind rest).map (fun r => (c :: r.1, r.2.1, r.2.2))

/-- The `split(/(<[^>]+>)/g)`. -/
def splitKeepTags : ℕ → Str → List Str
  | 0, s => [s]
  | fuel + 1, s =>
    match tagFind s with
    | none => [s]
    | some (before, tok, after) => before :: tok :: splitKeepTags fuel after

/-- Match `/<br\s*\/?\s*>/i` at the current position; returns the remainder. -/
def brTryAt : Str → Option Str
  | lt :: b :: r0 :: rest =>
    if lt = '<' && (b = 'b' || b = 'B') && (r0 = 'r' || r0 = 'R') then
      let r1 := rest.dropWhile wsChar
      let r2 := match r1 with
        | '/' :: t => t
        | _ => r1
      match r2.dropWhile wsChar with
      | '>' :: rr => some rr
      | _ => none
    else none
  | _ => none

/-- The `replace(/<br\s*\/?\s*>/gi, '\n')`. -/
def brReplaceAll : ℕ → Str → Str
  | 0, s => s
  | _ + 1, [] => []
  | fuel + 1, c :: rest =>
    match brTryAt (c :: rest) with
    | some rr => '\n' :: brReplaceAll fuel rr
    | none => c :: brReplaceAll fuel rest

/-- Match `/\{\\[^}]*\}/` at the current position; returns the remainder. -/
def assBlockTryAt : Str → Option Str
  | ob :: bs :: rest =>
    if ob = '{' && bs = '\\' then
      let inner := rest.takeWhile (fun x => x ≠ '}')
      match rest.drop inner.length with
      | '}' :: rr => some rr
      | _ => none
    else none
  | _ => none

/-- The `replace(/\{\\[^}]*\}/g, '')`. -/
def stripAssBlocks : ℕ → Str → Str
  | 0, s => s
  | _ + 1, [] => []
  | fuel + 1, c :: rest =>
    match assBlockTryAt (c :: rest) with
    | some rr => stripAssBlocks fuel rr
    | none => c :: stripAssBlocks fuel rest

/-- First match of `/\n\n+/` as (before, after-the-run). -/
def blankRunFind : Str → Option (Str × Str)
  | [] => none
  | '\n' :: '\n' :: rest => some ([], rest.dropWhile (fun c => c = '\n'))
  | c :: rest => (blankRunFind rest).map (fun r => (c :: r.1, r.2))

/-- The `split(/\n\n+/)`. -/
def splitBlankRuns : ℕ → Str → List Str
  | 0, s => [s]
  | fuel + 1, s =>
    match blankRunFind s with
    | none => [s]
    | some (before, after) => before :: splitBlankRuns fuel after

/-- First match of `/\s+/` as (before, after-the-run). -/
def wsRunFind : Str → Option (Str × Str)
  | [] => none
  | c :: rest =>
    if wsChar c then some ([], rest.dropWhile wsChar)
    else (wsRunFind rest).map (fun r => (c :: r.1, r.2))

/-- The `split(/\s+/)`. -/
def splitWsRuns : ℕ → Str → List Str
  | 0, s => [s]
  | fuel + 1, s =>
    match wsRunFind s with
    | none => [s]
    | some (before, after) => before :: splitWsRuns fuel after

/-- The `/^<\/?([a-zA-Z0-9]+)([^>]*)>/` applied to a token:
(closing?, raw tag name, attributes text). -/
def parseTagToken (token : Str) : Option (Bool × Str × Str) :=
  match token with
  | '<' :: rest =>
    let closing := match rest with
      | '/' :: _ => true
      | _ => false
    let r1 := if closing then rest.drop 1 else rest
    let name := r1.takeWhile alnumChar
    if name.isEmpty then none
    else
      let r2 := r1.drop name.length
      let attrsText := r2.takeWhile (fun c => c ≠ '>')
      match r2.drop attrsText.length with
      | '>' :: _ => some (closing, name, attrsText)
      | _ => none
  | _ => none

/-- Minimal (`*?`) body up to the literal `</x>` as (body, remainder). -/
def findCloseTag (tag : Char) : Str → Option (Str × Str)
  | [] => none
  | c :: rest =>
    if ['<', '/', tag, '>'].isPrefixOf (c :: rest) then
      some ([], (c :: rest).drop 4)
    else (findCloseTag tag rest).map (fun r => (c :: r.1, r.2))

/-- Match `/<x\b([^>]*)>([\s\S]*?)<\/x>/` at the current position:
(attributes text, body, remainder). -/
def elemTryAt (tag : Char) (s : Str) : Option (Str × Str × Str) :=
  match s with
  | '<' :: c :: rest =>
    if c = tag then
      let boundaryOk := match rest with
        | [] => true
        | d :: _ => !wordChar d
      if boundaryOk then
        let attrs := rest.takeWhile (fun x => x ≠ '>')
        match rest.drop attrs.length with
        | '>' :: r2 =>
          (findCloseTag tag r2).map (fun bp => (attrs, bp.1, bp.2))
        | _ => none
      else none
    else none
  | _ => none

/-- The `regex.exec` loop collecting every `<x ...>...</x>` element in
document order. -/
def elemExtractAux (tag : Char) : ℕ → Str → List (Str × Str)
  | 0, _ => []
  | _ + 1, [] => []
  | fuel + 1, c :: rest =>
    match elemTryAt tag (c :: rest) with
    | some (attrs, body, rem) => (attrs, body) :: elemExtractAux tag fuel rem
    | none => elemExtractAux tag fuel rest

def elemExtract (tag : Char) (s : Str) : List (Str × Str) :=
  elemExtractAux tag (s.length + 1) s

/- ## Inline markup tokenizers -/

structure ParsedCueText where
  text : Str
  lines : List (List SubtitleSegment)
deriving DecidableEq, Repr

/-- The `classNameToStyle`: YouTube class convention (`c.X` sets color, `bg_X`
sets background; `_` becomes a space). -/
def classNameToStyle (className : Str) : SubtitleStyle :=
  (splitWsRuns (className.length + 1) className).foldl
    (fun st cur =>
      let st1 :=
        if ("c.").toList.isPrefixOf cur then
          { st with color := some (replaceAll (("_").toList) ((" ").toList) (cur.drop 2)) }
        else st
      if ("bg_").toList.isPrefixOf cur then
        { st1 with
          backgroundColor :=
            some (replaceAll (("_").toList) ((" ").toList) (cur.drop 3)) }
      else st1)
    {}

/-- The `youtubeClassToStyle`: numeric SRV3 span classes. -/
def youtubeClassToStyle (styleClass : Str) : SubtitleStyle :=
  if styleClass = ("7").toList then { fontWeight := some (("bold").toList) }
  else if styleClass = ("8").toList then { fontStyle := some (("italic").toList) }
  else {}

/-- JS object spread `{...next, ...cls}` where `cls` was built by
`classNameToStyle` (so only `color`/`backgroundColor` can be present). -/
def mergeClassStyle (next cls : SubtitleStyle) : SubtitleStyle :=
  { next with
    color := match cls.color with
      | some v => some v
      | none => next.color,
    backgroundColor := match cls.backgroundColor with
      | some v => some v
      | none => next.backgroundColor }

/-- The `applyHtmlLikeStyle`. -/
def applyHtmlLikeStyle (baseStyle : SubtitleStyle) (tagName : Str)
    (attrs : JMap Str) : SubtitleStyle :=
  let n1 :=
    if tagName = ("b").toList || tagName = ("strong").toList then
      { baseStyle with fontWeight := some (("bold").toList) }
    else baseStyle
  let n2 :=
    if tagName = ("i").toList || tagName = ("em").toList then
      { n1 with fontStyle := some (("italic").toList) }
    else n1
  let n3 :=
    if tagName = ("u").toList then
      { n2 with textDecoration := some (buildTextDecoration true
          ((n2.textDecoration.map
            (fun t => strIncludes (("line-through").toList) t)).getD false)) }
    else n2
  let n4 :=
    match attrs.get? (("color").toList) with
    | some c =>
      if tagName = ("font").toList && !c.isEmpty then { n3 with color := some c }
      else n3
    | none => n3
  match attrs.get? (("class").toList) with
  | some cls =>
    if tagName = ("c").toList && !cls.isEmpty then
      mergeClassStyle n4 (classNameToStyle cls)
    else n4
  | none => n4

/-- Push the `split('\n')` parts of one text token onto the line-under-
construction: each non-empty part becomes a segment styled with a copy of
the running style, and each part except the last finishes a line. -/
def addTextParts (style : SubtitleStyle) :
    List Str → List (List SubtitleSegment) → List SubtitleSegment →
    List (List SubtitleSegment) × List SubtitleSegment
  | [], done, cur => (done, cur)
  | [p], done, cur =>
    (done, if p.isEmpty then cur else cur ++ [{ text := p, style := some style }])
  | p :: q :: rest, done, cur =>
    addTextParts style (q :: rest)
      (done ++ [if p.isEmpty then cur else cur ++ [{ text := p, style := some style }]])
      []

structure InlineState where
  done : List (List SubtitleSegment)
  cur : List SubtitleSegment
  style : SubtitleStyle
  stack : List SubtitleStyle

/-- One iteration of the token loop of `parseInlineStyledText`. -/
def inlineStep (st : InlineState) (token : Str) : InlineState :=
  if !(("<").toList.isPrefixOf token) then
    let text := decodeEntities token
    let dc := addTextParts st.style (splitOnChar '\n' text) st.done st.cur
    { st with done := dc.1, cur := dc.2 }
  else
    match parseTagToken token with
    | none => st
    | some (closing, name, attrsText) =>
      let tagName := strToLower name
      let attrs := parseXmlAttributes attrsText
      if !closing then
        { st with
          stack := st.stack ++ [st.style]
          style := applyHtmlLikeStyle st.style tagName attrs }
      else
        match st.stack.getLast? with
        | some top => { st with stack := st.stack.dropLast, style := top }
        | none => { st with style := DEFAULT_STYLE }

/-- The `parseInlineStyledText` (the HTML-like dialect). -/
def parseInlineStyledText (rawText : Str) : ParsedCueText :=
  let normalized := trimStr (stripAssBlocks (rawText.length + 1)
    (brReplaceAll (rawText.length + 1) rawText))
  let tokens := (splitKeepTags (normalized.length + 1) normalized).filter
    (fun t => !t.isEmpty)
  let fin := tokens.foldl inlineStep
    { done := [], cur := [], style := DEFAULT_STYLE, stack := [] }
  let cleanedLines := pruneLines (fin.done ++ [fin.cur])
  { text := trimStr (flattenLines cleanedLines), lines := cleanedLines }

/- ## ASS override dialect -/

/-- The `applyASSOverride` (sequential field mutations of the running style;
the source tests `\s1` twice, which is reproduced verbatim). -/
def applyASSOverride (style : SubtitleStyle) (overrideBlock : Str) : SubtitleStyle :=
  let tags := (overrideBlock.drop 1).dropLast
  let n1 := if strIncludes (("\\b1").toList) tags then
      { style with fontWeight := some (("bold").toList) } else style
  let n2 := if strIncludes (("\\b0").toList) tags then
      { n1 with fontWeight := some (("normal").toList) } else n1
  let n3 := if strIncludes (("\\i1").toList) tags then
      { n2 with fontStyle := some (("italic").toList) } else n2
  let n4 := if strIncludes (("\\i0").toList) tags then
      { n3 with fontStyle := some (("normal").toList) } else n3
  let n5 := if strIncludes (("\\u1").toList) tags then
      { n4 with textDecoration := some (buildTextDecoration true
          ((n4.textDecoration.map
            (fun t => strIncludes (("line-through").toList) t)).getD false)) }
    else n4
  let n6 := if strIncludes (("\\s1").toList) tags then
      { n5 with textDecoration := some (buildTextDecoration
          ((n5.textDecoration.map
            (fun t => strIncludes (("underline").toList) t)).getD false) true) }
    else n5
  let n7 := if strIncludes (("\\s1").toList) tags then
      { n6 with textDecoration := some (buildTextDecoration
          ((n6.textDecoration.map
            (fun t => strIncludes (("underline").toList) t)).getD false) true) }
    else n6
  let n8 := match cColorSearch tags with
    | some hex => { n7 with color := assColorToCss (some ('&' :: 'H' :: hex ++ ['&'])) }
    | none => n7
  let n9 := match numAfterLit (("\\fs").toList) false tags with
    | some d => { n8 with fontSize := some (d ++ ("px").toList) }
    | none => n8
  let frz := numAfterLit (("\\frz").toList) true tags
  let frx := numAfterLit (("\\frx").toList) true tags
  let fry := numAfterLit (("\\fry").toList) true tags
  let fscx := numAfterLit (("\\fscx").toList) false tags
  let fscy := numAfterLit (("\\fscy").toList) false tags
  let rots := List.filterMap id [
    frz.map (fun v => ("rotateZ(").toList ++
      numToStr (JSNum.neg (jsParseFloat v)) ++ ("deg)").toList),
    frx.map (fun v => ("rotateX(").toList ++
      numToStr (jsParseFloat v) ++ ("deg)").toList),
    fry.map (fun v => ("rotateY(").toList ++
      numToStr (jsParseFloat v) ++ ("deg)").toList)]
  let transforms :=
    if fscx.isSome || fscy.isSome then
      let sx := match fscx with
        | some v => JSNum.div (jsParseFloat v) (JSNum.num 100)
        | none => JSNum.num 1
      let sy := match fscy with
        | some v => JSNum.div (jsParseFloat v) (JSNum.num 100)
        | none => JSNum.num 1
      rots ++ [("scale(").toList ++ numToStr sx ++ (", ").toList ++
        numToStr sy ++ (")").toList]
    else rots
  if !transforms.isEmpty then
    { n9 with
      display := some (("inline-block").toList)
      transform := some (List.intercalate ([' ']) transforms) }
  else n9

structure AssDlgState where
  done : List (List SubtitleSegment)
  cur : List SubtitleSegment
  style : SubtitleStyle

/-- One iteration of the token loop of `parseASSDialogueText`. -/
def assDlgStep (st : AssDlgState) (token : Str) : AssDlgState :=
  if token.isEmpty then st
  else if ("\x7b").toList.isPrefixOf token && strEndsWith token (("\x7d").toList) then
    { st with style := applyASSOverride st.style token }
  else
    let plain := decodeEntities token
    let dc := addTextParts st.style (splitOnChar '\n' plain) st.done st.cur
    { st with done := dc.1, cur := dc.2 }

/-- The `parseASSDialogueText` (the ASS override dialect).  Note: the flattened
`text` is computed from the *unpruned* lines, the returned `lines` are
pruned. -/
def parseASSDialogueText (text : Str) (baseStyle : SubtitleStyle) : ParsedCueText :=
  let prepped := replaceAll (("\\h").toList) ((" ").toList)
    (replaceAll (("\\n").toList) (("\n").toList)
      (replaceAll (("\\N").toList) (("\n").toList) text))
  let tokens := splitKeepBraces (prepped.length + 1) prepped
  let fin := tokens.foldl assDlgStep { done := [], cur := [], style := baseStyle }
  let linesAll := fin.done ++ [fin.cur]
  { text := trimStr (flattenLines linesAll), lines := pruneLines linesAll }

/- ## Time-code parsers -/

/-- The `parseFlexibleTimeString` (WebVTT/SRT flexible form).  `replace(',', '.')`
replaces only the first comma; `split(/[\s]/)[0]` keeps the prefix before the
first whitespace character.  Note the missing `|| 0` guards on the 2- and
3-part branches: a non-numeric part yields `NaN` there. -/
def parseFlexibleTimeString (timeStr : Str) : JSNum :=
  let cleaned := (replaceFirst ([',']) (['.']) timeStr).takeWhile (fun c => !wsChar c)
  let parts := (splitOnChar ':' cleaned).map jsNumber
  if parts.length = 3 then
    ((parts.getD 0 JSNum.nan).mul (JSNum.num 3600)).add
      (((parts.getD 1 JSNum.nan).mul (JSNum.num 60)).add (parts.getD 2 JSNum.nan))
  else if parts.length = 2 then
    ((parts.getD 0 JSNum.nan).mul (JSNum.num 60)).add (parts.getD 1 JSNum.nan)
  else
    let v := jsNumber cleaned
    if v.truthy then v else JSNum.num 0

/-- The `parseMillisecondsString` (YTT/SRV3 `t`/`d` attributes). -/
def parseMillisecondsString (value : Str) : JSNum :=
  match jsNumber value with
  | JSNum.nan => JSNum.num 0
  | v => JSNum.div v (JSNum.num 1000)

/-- The `parseASSTime` (the `H:MM:SS.CC` form; `0` on regex mismatch). -/
def parseASSTime (time : Str) : JSNum :=
  match assTimeSearch (trimStr time) with
  | none => JSNum.num 0
  | some (h, m, s, cs) =>
    (((jsNumber h).mul (JSNum.num 3600)).add ((jsNumber m).mul (JSNum.num 60))).add
      ((jsNumber s).add ((jsNumber cs).div (JSNum.num 100)))

/- ## WebVTT / SRT block parsers -/

/-- The body of the `parseWebVTT` block loop for a single block. -/
def webvttBlockCue (block : Str) : Option SubtitleCue :=
  let lines := (splitOnChar '\n' block).map trimStr
  match List.findIdx? (fun l => strIncludes (("-->").toList) l) lines with
  | none => none
  | some timeLineIndex =>
    let timeLine := lines.getD timeLineIndex []
    let textLines := (lines.drop (timeLineIndex + 1)).filter (fun l => !l.isEmpty)
    if textLines.isEmpty then none
    else match arrowSearch timeLine with
      | none => none
      | some (g1, g2) =>
        let parsedText := parseInlineStyledText (joinNl textLines)
        some { startTime := parseFlexibleTimeString g1,
               endTime := parseFlexibleTimeString g2,
               text := parsedText.text, lines := parsedText.lines }

/-- The `parseWebVTT`. -/
def parseWebVTT (vttContent : Str) : List SubtitleCue :=
  let normalized := vttContent.filter (fun c => c ≠ '\r')
  let blocks := splitBlankRuns (normalized.length + 1) normalized
  blocks.foldl (fun cues block => cues ++ (webvttBlockCue block).toList) []

/-- The body of the `parseSRT` block loop for a single block.  (`indexOf`
of the found time line equals its `findIndex`, since an earlier equal line
would itself contain `-->`.) -/
def srtBlockCue (block : Str) : Option SubtitleCue :=
  let lines := splitOnChar '\n' (trimStr block)
  if lines.length < 2 then none
  else match lines.find? (fun l => strIncludes (("-->").toList) l) with
    | none => none
    | some timeLine =>
      match arrowSearch timeLine with
      | none => none
      | some (g1, g2) =>
        let textStart := (List.findIdx? (fun l => l = timeLine) lines).getD 0 + 1
        let parsedText := parseInlineStyledText (joinNl (lines.drop textStart))
        some { startTime := parseFlexibleTimeString g1,
               endTime := parseFlexibleTimeString g2,
               text := parsedText.text, lines := parsedText.lines }

/-- The `parseSRT`. -/
def parseSRT (srtContent : Str) : List SubtitleCue :=
  let normalized := srtContent.filter (fun c => c ≠ '\r')
  let blocks := splitBlankRuns (normalized.length + 1) normalized
  blocks.foldl (fun cues block => cues ++ (srtBlockCue block).toList) []

/- ## YTT / SRV3 parsers -/

/-- JS `a || b` on an optional string: empty and missing are both falsy. -/
def strOrElse (a : Option Str) (b : Option Str) : Option Str :=
  match a with
  | some v => if v.isEmpty then b else some v
  | none => b

/-- JS `a || "lit"` on an optional string. -/
def strOrDefault (a : Option Str) (d : Str) : Str :=
  match a with
  | some v => if v.isEmpty then d else v
  | none => d

/-- Cue built from one `<p ...>...</p>` match by `parseYTT`. -/
def yttCueOf (p : Str × Str) : SubtitleCue :=
  let attrs := parseXmlAttributes p.1
  let startTime := parseMillisecondsString ((attrs.get? (("t").toList)).getD (("0").toList))
  let endTime := startTime.add
    (parseMillisecondsString ((attrs.get? (("d").toList)).getD (("0").toList)))
  let parsedText := parseInlineStyledText p.2
  { startTime := startTime, endTime := endTime,
    text := parsedText.text, lines := parsedText.lines }

/-- The `parseYTT`. -/
def parseYTT (yttContent : Str) : List SubtitleCue :=
  (elemExtract 'p' yttContent).foldl (fun cues p => cues ++ [yttCueOf p]) []

/-- Segment built from one `<s ...>...</s>` match by `parseSRV3`. -/
def srv3SpanSeg (sp : Str × Str) : SubtitleSegment :=
  let spanAttrs := parseXmlAttributes sp.1
  let parsed := parseInlineStyledText sp.2
  { text := parsed.text,
    style := match spanAttrs.get? (("c").toList) with
      | some c => if c.isEmpty then none else some (youtubeClassToStyle c)
      | none => none }

/-- Cue built from one `<p ...>...</p>` match by `parseSRV3`. -/
def srv3CueOf (p : Str × Str) : SubtitleCue :=
  let attrs := parseXmlAttributes p.1
  let startTime := parseMillisecondsString ((attrs.get? (("t").toList)).getD (("0").toList))
  let endTime := startTime.add
    (parseMillisecondsString ((attrs.get? (("d").toList)).getD (("0").toList)))
  let segments := (elemExtract 's' p.2).map srv3SpanSeg
  if !segments.isEmpty then
    { startTime := startTime, endTime := endTime,
      text := trimStr (List.intercalate ([' ']) (segments.map (fun s => s.text))),
      lines := [segments] }
  else
    let parsedText := parseInlineStyledText p.2
    { startTime := startTime, endTime := endTime,
      text := parsedText.text, lines := parsedText.lines }

/-- The `parseSRV3`. -/
def parseSRV3 (srv3Content : Str) : List SubtitleCue :=
  (elemExtract 'p' srv3Content).foldl (fun cues p => cues ++ [srv3CueOf p]) []

/- ## ASS styles and events -/

/-- The `parseAssAlignmentTag`: extract `\anN` and map the 1–11 grid code. -/
def parseAssAlignmentTag (text : Str) : Option Str × Option Str :=
  match anSearch text with
  | none => (none, none)
  | some ds =>
    let code := natOfDigits ds
    let horizontal :=
      if code = 1 || code = 4 || code = 7 then ("left").toList
      else if code = 3 || code = 6 || code = 9 then ("right").toList
      else ("center").toList
    let vertical :=
      if code = 7 || code = 8 || code = 9 then ("top").toList
      else if code = 4 || code = 5 || code = 6 then ("middle").toList
      else ("bottom").toList
    (some horizontal, some vertical)

structure ASSEventLite where
  startTime : JSNum
  endTime : JSNum
  style : Str
  text : Str
  alignment : Option Str := none
  verticalAlign : Option Str := none
deriving DecidableEq, Repr

/-- The line loop of `parseASSEvents` (state: in-Events-section flag and the
declared field names). -/
def parseASSEventsAux : List Str → Bool → List Str → List ASSEventLite
  | [], _, _ => []
  | line :: rest, inEvents, fields =>
    if ("[").toList.isPrefixOf line then
      parseASSEventsAux rest (isEventsHeader line) fields
    else if !inEvents then parseASSEventsAux rest inEvents fields
    else if ("Format:").toList.isPrefixOf line then
      parseASSEventsAux rest inEvents
        ((splitOnChar ',' (replaceFirst (("Format:").toList) [] line)).map
          (fun f => strToLower (trimStr f)))
    else if !(("Dialogue:").toList.isPrefixOf line) || fields.isEmpty then
      parseASSEventsAux rest inEvents fields
    else
      let values := splitWithLimit
        (trimStr (replaceFirst (("Dialogue:").toList) [] line)) fields.length
      let style := strOrDefault (readField values fields (("style").toList))
        (("Default").toList)
      let text := (readField values fields (("text").toList)).getD []
      let align := parseAssAlignmentTag text
      let startTime := parseASSTime
        (strOrDefault (readField values fields (("start").toList))
          (("0:00:00.00").toList))
      let endTime := parseASSTime
        (strOrDefault (readField values fields (("end").toList))
          (("0:00:00.00").toList))
      { startTime := startTime, endTime := endTime, style := style, text := text,
        alignment := align.1, verticalAlign := align.2 } ::
        parseASSEventsAux rest inEvents fields

/-- The `parseASSEvents` (before the sort applied at the call site). -/
def parseASSEvents (assContent : Str) : List ASSEventLite :=
  parseASSEventsAux ((splitOnChar '\n' assContent).map trimStr) false []

/-- The `Style-${styles.size}`: default name for a Style row without a name. -/
def defaultStyleName (k : ℕ) : Str := ("Style-").toList ++ natToStr k

/-- The style record built from one Style row (the object literal inside
`parseASSStyles`). -/
def styleOfRow (values fields : List Str) : SubtitleStyle :=
  { fontFamily := match readField values fields (("fontname").toList) with
      | some v => if v.isEmpty then none else some v
      | none => none
    fontSize := toPx (readField values fields (("fontsize").toList))
    color := assColorToCss (strOrElse
      (readField values fields (("primarycolour").toList))
      (readField values fields (("primarycolor").toList)))
    backgroundColor := assColorToCss (strOrElse
      (readField values fields (("backcolour").toList))
      (readField values fields (("backcolor").toList)))
    fontWeight := some (if isASSFlag (readField values fields (("bold").toList))
      then ("bold").toList else ("normal").toList)
    fontStyle := some (if isASSFlag (readField values fields (("italic").toList))
      then ("italic").toList else ("normal").toList)
    textDecoration := some (buildTextDecoration
      (isASSFlag (readField values fields (("underline").toList)))
      (isASSFlag (readField values fields (("strikeout").toList))))
    transform := some (("rotate(").toList ++
      numToStr (JSNum.neg (jsParseFloat
        (strOrDefault (readField values fields (("angle").toList)) (("0").toList)))) ++
      ("deg) scale(").toList ++
      numToStr (JSNum.div (jsParseFloat
        (strOrDefault (readField values fields (("scalex").toList)) (("100").toList)))
        (JSNum.num 100)) ++
      (", ").toList ++
      numToStr (JSNum.div (jsParseFloat
        (strOrDefault (readField values fields (("scaley").toList)) (("100").toList)))
        (JSNum.num 100)) ++
      (")").toList) }

/-- The line loop of `parseASSStyles` (state: in-Styles-section flag, field
names, and the style table built so far — the table is consulted for
`styles.size` when a row has no name). -/
def parseASSStylesAux : List Str → Bool → List Str → JMap SubtitleStyle →
    JMap SubtitleStyle
  | [], _, _, m => m
  | line :: rest, inSec, fields, m =>
    if ("[").toList.isPrefixOf line then
      parseASSStylesAux rest (isStylesHeader line) fields m
    else if !inSec then parseASSStylesAux rest inSec fields m
    else if ("Format:").toList.isPrefixOf line then
      parseASSStylesAux rest inSec
        ((splitOnChar ',' (replaceFirst (("Format:").toList) [] line)).map
          (fun f => strToLower (trimStr f))) m
    else if !(("Style:").toList.isPrefixOf line) || fields.isEmpty then
      parseASSStylesAux rest inSec fields m
    else
      let values := splitWithLimit
        (trimStr (replaceFirst (("Style:").toList) [] line)) fields.length
      let name := strOrDefault (readField values fields (("name").toList))
        (defaultStyleName m.size)
      parseASSStylesAux rest inSec fields (m.set name (styleOfRow values fields))

/-- The `parseASSStyles`. -/
def parseASSStyles (assContent : Str) : JMap SubtitleStyle :=
  parseASSStylesAux ((splitOnChar '\n' assContent).map trimStr) false [] JMap.empty

/-- The (name, attributes) Style rows encountered by `parseASSStyles`, in
processing order; used to characterise the table it builds. -/
def parseASSStyleRowsAux : List Str → Bool → List Str → JMap SubtitleStyle →
    List (Str × SubtitleStyle)
  | [], _, _, _ => []
  | line :: rest, inSec, fields, m =>
    if ("[").toList.isPrefixOf line then
      parseASSStyleRowsAux rest (isStylesHeader line) fields m
    else if !inSec then parseASSStyleRowsAux rest inSec fields m
    else if ("Format:").toList.isPrefixOf line then
      parseASSStyleRowsAux rest inSec
        ((splitOnChar ',' (replaceFirst (("Format:").toList) [] line)).map
          (fun f => strToLower (trimStr f))) m
    else if !(("Style:").toList.isPrefixOf line) || fields.isEmpty then
      parseASSStyleRowsAux rest inSec fields m
    else
      let values := splitWithLimit
        (trimStr (replaceFirst (("Style:").toList) [] line)) fields.length
      let name := strOrDefault (readField values fields (("name").toList))
        (defaultStyleName m.size)
      (name, styleOfRow values fields) ::
        parseASSStyleRowsAux rest inSec fields (m.set name (styleOfRow values fields))

def parseASSStyleRows (assContent : Str) : List (Str × SubtitleStyle) :=
  parseASSStyleRowsAux ((splitOnChar '\n' assContent).map trimStr) false [] JMap.empty

/- ## Cue assembly (ASS sort) -/

/-- The `(a, b) => a.startTime - b.startTime` comparator, as the "keep the
current order of a, b" relation (comparator value ≤ 0).  `parseASSTime`
never returns `nan`, so the `nan` rows — chosen to make the relation total
and transitive — are unreachable. -/
def assCmpLe (a b : ASSEventLite) : Bool :=
  match a.startTime, b.startTime with
  | JSNum.num x, JSNum.num y => x ≤ y
  | JSNum.nan, _ => true
  | _, JSNum.nan => false

/-- Stable insertion: the new element goes after every element it compares
`≤` against, matching the stable `Array.prototype.sort`. -/
def insertSorted (x : ASSEventLite) : List ASSEventLite → List ASSEventLite
  | [] => [x]
  | y :: ys => if assCmpLe y x then y :: insertSorted x ys else x :: y :: ys

/-- The `events.sort((a, b) => a.startTime - b.startTime)` as a stable sort. -/
def sortAssEvents (events : List ASSEventLite) : List ASSEventLite :=
  events.foldl (fun acc x => insertSorted x acc) []

/-- The cue assembled from one (sorted) event by `parseASSWithStyles`. -/
def assCueOf (styleMap : JMap SubtitleStyle) (event : ASSEventLite) : SubtitleCue :=
  let baseStyle := (styleMap.get? event.style).getD DEFAULT_STYLE
  let parsed := parseASSDialogueText event.text baseStyle
  { startTime := event.startTime, endTime := event.endTime,
    text := parsed.text, lines := parsed.lines,
    alignment := some (event.alignment.getD (("center").toList)),
    verticalAlign := some (event.verticalAlign.getD (("bottom").toList)),
    noBackground := some true }

/-- The `parseASSWithStyles`. -/
def parseASSWithStyles (assContent : Str) : List SubtitleCue :=
  let styleMap := parseASSStyles assContent
  let events := sortAssEvents (parseASSEvents assContent)
  events.map (assCueOf styleMap)

/- ## Top-level API -/

/-- The `getCurrentSubtitleCue` (the cue-time point query). -/
def getCurrentSubtitleCue (cues : List SubtitleCue) (currentTime : JSNum) :
    Option SubtitleCue :=
  cues.find? (fun cue =>
    JSNum.geb currentTime cue.startTime && JSNum.leb currentTime cue.endTime)

/-- The `parseSubtitlesFromString` (format detection and dispatch). -/
def parseSubtitlesFromString (content : Str) (sourceName : Str := []) :
    List SubtitleCue :=
  let normalized := trimStr content
  let lowerName := strToLower sourceName
  if strEndsWith lowerName ((".ass").toList) || strEndsWith lowerName ((".ssa").toList)
      || strIncludes (("[Script Info]").toList) normalized then
    parseASSWithStyles normalized
  else if strEndsWith lowerName ((".ytt").toList)
      || strIncludes (("<timedtext").toList) normalized then
    parseYTT normalized
  else if strEndsWith lowerName ((".srv3").toList)
      || strIncludes (("<transcript").toList) normalized then
    parseSRV3 normalized
  else if strEndsWith lowerName ((".vtt").toList)
      || strIncludes (("WEBVTT").toList) normalized then
    parseWebVTT normalized
  else if strEndsWith lowerName ((".srt").toList) then
    parseSRT normalized
  else if strIncludes (("-->").toList) normalized then
    if srtTimePattern normalized then parseSRT normalized else parseWebVTT normalized
  else []

/- ## Helper lemmas: trimming, joining, pruning -/

theorem trimLeftStr_cons_ws {c : Char} (s : Str) (h : wsChar c = true) :
    trimLeftStr (c :: s) = trimLeftStr s := by
  simp [trimLeftStr, List.dropWhile_cons, h]

theorem trimRightStr_append_ws {c : Char} (s : Str) (h : wsChar c = true) :
    trimRightStr (s ++ [c]) = trimRightStr s := by
  simp [trimRightStr, trimLeftStr, List.dropWhile_cons, h]

theorem trimStr_append_ws {c : Char} (s : Str) (h : wsChar c = true) :
    trimStr (s ++ [c]) = trimStr s := by
  simp [trimStr, trimRightStr_append_ws s h]

theorem trimStr_cons_ws {c : Char} (s : Str) (h : wsChar c = true) :
    trimStr (c :: s) = trimStr s := by
  by_cases hall : List.dropWhile wsChar s.reverse = []
  · have h1 : trimRightStr (c :: s) = [] := by
      have : (c :: s).reverse = s.reverse ++ [c] := by simp
      simp [trimRightStr, trimLeftStr, this, List.dropWhile_append, hall, h]
    have h2 : trimRightStr s = [] := by simp [trimRightStr, trimLeftStr, hall]
    simp [trimStr, h1, h2]
  · have h1 : trimRightStr (c :: s) = c :: trimRightStr s := by
      have : (c :: s).reverse = s.reverse ++ [c] := by simp
      simp [trimRightStr, trimLeftStr, this, List.dropWhile_append, hall]
    simp [trimStr, h1, trimLeftStr_cons_ws _ h]

theorem trimStr_eq_nil_iff (s : Str) :
    trimStr s = [] ↔ ∀ c ∈ s, wsChar c = true := by
  constructor
  · intro h c hc
    have hall : ∀ x ∈ trimRightStr s, wsChar x = true := by
      intro x hx
      exact (List.dropWhile_eq_nil_iff).1 h x hx
    have hsplit : c ∈ List.takeWhile wsChar s.reverse ∨
        c ∈ List.dropWhile wsChar s.reverse := by
      have : c ∈ List.takeWhile wsChar s.reverse ++ List.dropWhile wsChar s.reverse := by
        rw [List.takeWhile_append_dropWhile]
        exact List.mem_reverse.2 hc
      exact List.mem_append.1 this
    rcases hsplit with hl | hr
    · exact List.mem_takeWhile_imp hl
    · exact hall c (List.mem_reverse.2 hr)
  · intro h
    induction s with
    | nil => rfl
    | cons a t ih =>
      rw [trimStr_cons_ws t (h a (by simp))]
      exact ih (fun c hc => h c (by simp [hc]))

theorem joinNl_cons_cons (a b : Str) (rest : List Str) :
    joinNl (a :: b :: rest) = a ++ '\n' :: joinNl (b :: rest) := rfl

/-- Lines kept at indices `≥ 1` that are not the last: everything except a
trailing empty line. -/
def dropLastIfEmptySeg : List (List SubtitleSegment) → List (List SubtitleSegment)
  | [] => []
  | [l] => if l.length > 0 then [l] else []
  | l :: b :: r => l :: dropLastIfEmptySeg (b :: r)

theorem pruneIdxFilter_cons (n i : ℕ) (l : List SubtitleSegment)
    (rest : List (List SubtitleSegment)) :
    pruneIdxFilter n i (l :: rest) =
      if l.length > 0 || (decide (0 < i) && decide (i < n - 1)) then
        l :: pruneIdxFilter n (i + 1) rest
      else pruneIdxFilter n (i + 1) rest := rfl

theorem pruneIdxFilter_tail (n : ℕ) :
    ∀ (rest : List (List SubtitleSegment)) (i : ℕ), 0 < i → i + rest.length = n →
    pruneIdxFilter n i rest = dropLastIfEmptySeg rest := by
  intro rest
  induction rest with
  | nil => intro i _ _; rfl
  | cons l r ih =>
    intro i hi hn
    cases r with
    | nil =>
      have hlt : ¬ i < n - 1 := by simp at hn; omega
      rw [pruneIdxFilter_cons]
      by_cases hl : l.length > 0
      · simp [hl, dropLastIfEmptySeg, pruneIdxFilter]
      · simp [hl, hlt, dropLastIfEmptySeg, pruneIdxFilter]
    | cons b r2 =>
      have hlt : i < n - 1 := by simp at hn; omega
      have ht : pruneIdxFilter n (i + 1) (b :: r2) = dropLastIfEmptySeg (b :: r2) :=
        ih (i + 1) (by omega) (by simp at hn ⊢; omega)
      rw [pruneIdxFilter_cons, ht]
      simp [hi, hlt, dropLastIfEmptySeg]

theorem pruneIdxFilter_zero (n : ℕ) (l : List SubtitleSegment)
    (rest : List (List SubtitleSegment)) (hn : 1 + rest.length = n) :
    pruneIdxFilter n 0 (l :: rest) =
      (if l.length > 0 then [l] else []) ++ dropLastIfEmptySeg rest := by
  cases rest with
  | nil =>
    rw [pruneIdxFilter_cons]
    by_cases hl : l.length > 0 <;> simp [hl, dropLastIfEmptySeg, pruneIdxFilter]
  | cons b r2 =>
    have htail : pruneIdxFilter n 1 (b :: r2) = dropLastIfEmptySeg (b :: r2) :=
      pruneIdxFilter_tail n (b :: r2) 1 (by omega) (by simp at hn ⊢; omega)
    rw [pruneIdxFilter_cons, htail]
    by_cases hl : l.length > 0 <;> simp [hl]

theorem lineText_filter (line : List SubtitleSegment) :
    lineText (line.filter (fun seg => seg.text.length > 0)) = lineText line := by
  induction line with
  | nil => rfl
  | cons seg r ih =>
    by_cases hs : seg.text.length > 0
    · simp [List.filter_cons, hs, lineText] at ih ⊢
      exact ih
    · have : seg.text = [] := by
        simpa using List.length_eq_zero.1 (by omega)
      simp [List.filter_cons, hs, lineText, this] at ih ⊢
      exact ih

theorem joinNl_cons_of_ne (a : Str) (M : List Str) (h : M ≠ []) :
    joinNl (a :: M) = a ++ '\n' :: joinNl M := by
  cases M with
  | nil => exact absurd rfl h
  | cons b rest => rfl

theorem flattenLines_cons_of_ne (x : List SubtitleSegment)
    (M : List (List SubtitleSegment)) (h : M ≠ []) :
    flattenLines (x :: M) = lineText x ++ '\n' :: flattenLines M := by
  simp only [flattenLines, List.map_cons]
  exact joinNl_cons_of_ne _ _ (by simpa using h)

/-- Dropping a trailing empty line loses at most one trailing newline of the
flattened text. -/
theorem flatten_dropLastEmpty (rest : List (List SubtitleSegment)) :
    flattenLines rest = flattenLines (dropLastIfEmptySeg rest) ∨
    flattenLines rest = flattenLines (dropLastIfEmptySeg rest) ++ ['\n'] := by
  induction rest with
  | nil => exact Or.inl rfl
  | cons l r ih =>
    cases r with
    | nil =>
      by_cases hl : l.length > 0
      · exact Or.inl (by simp [dropLastIfEmptySeg, hl])
      · have : l = [] := List.length_eq_zero.1 (by omega)
        subst this
        exact Or.inl (by simp [dropLastIfEmptySeg, flattenLines, joinNl, lineText])
    | cons b r2 =>
      have hstep : flattenLines (l :: b :: r2) =
          lineText l ++ '\n' :: flattenLines (b :: r2) :=
        flattenLines_cons_of_ne l (b :: r2) (by simp)
      have hdrop : dropLastIfEmptySeg (l :: b :: r2) =
          l :: dropLastIfEmptySeg (b :: r2) := rfl
      cases hD : dropLastIfEmptySeg (b :: r2) with
      | nil =>
        have hb : b = [] ∧ r2 = [] := by
          cases r2 with
          | nil =>
            by_cases hb : b.length > 0
            · simp [dropLastIfEmptySeg, hb] at hD
            · exact ⟨List.length_eq_zero.1 (by omega), rfl⟩
          | cons c r3 => simp [dropLastIfEmptySeg] at hD
        rcases hb with ⟨hb1, hb2⟩
        subst hb1; subst hb2
        refine Or.inr ?_
        rw [hstep, hdrop, hD]
        simp [flattenLines, joinNl, lineText]
      | cons d rd =>
        rw [hstep, hdrop, flattenLines_cons_of_ne l _ (by rw [hD]; simp)]
        rcases ih with h | h
        · exact Or.inl (by rw [h])
        · refine Or.inr ?_
          rw [h]
          simp

/-- Trimming the flattened text is invariant under `pruneLines`: pruning
only removes empty segments and a leading/trailing empty line. -/
theorem trim_flatten_prune (L : List (List SubtitleSegment)) :
    trimStr (flattenLines (pruneLines L)) = trimStr (flattenLines L) := by
  have hmap : (L.map (fun line => line.filter (fun seg => seg.text.length > 0))).map
      lineText = L.map lineText := by
    rw [List.map_map]
    exact List.map_congr_left (fun line _ => lineText_filter line)
  have hflat : flattenLines (L.map (fun line =>
      line.filter (fun seg => seg.text.length > 0))) = flattenLines L := by
    simp only [flattenLines, hmap]
  rw [← hflat]
  simp only [pruneLines]
  cases hcl : L.map (fun line => line.filter (fun seg => seg.text.length > 0)) with
  | nil => simp [pruneIdxFilter]
  | cons c0 rest =>
    rw [pruneIdxFilter_zero _ c0 rest (by simp [Nat.add_comm])]
    by_cases hc0 : c0.length > 0
    · have hpr : (if c0.length > 0 then [c0] else []) ++ dropLastIfEmptySeg rest =
          dropLastIfEmptySeg (c0 :: rest) := by
        cases rest with
        | nil => simp [dropLastIfEmptySeg, hc0]
        | cons b r2 => simp [dropLastIfEmptySeg, hc0]
      rw [hpr]
      rcases flatten_dropLastEmpty (c0 :: rest) with h | h
      · rw [h]
      · rw [h, trimStr_append_ws _ (by decide)]
    · have hc0nil : c0 = [] := List.length_eq_zero.1 (by omega)
      subst hc0nil
      rw [show (if ([] : List SubtitleSegment).length > 0 then
          [([] : List SubtitleSegment)] else []) ++ dropLastIfEmptySeg rest =
          dropLastIfEmptySeg rest from by simp]
      cases rest with
      | nil =>
        simp [dropLastIfEmptySeg, flattenLines, joinNl, lineText]
      | cons b r2 =>
        have hstep : flattenLines ([] :: b :: r2) =
            '\n' :: flattenLines (b :: r2) := by
          rw [flattenLines_cons_of_ne _ _ (by simp)]
          simp [lineText]
        rw [hstep, trimStr_cons_ws _ (by decide)]
        rcases flatten_dropLastEmpty (b :: r2) with h | h
        · rw [h]
        · rw [h, trimStr_append_ws _ (by decide)]

/- ## Helper lemmas: loop shapes and membership -/

theorem foldl_optPush_eq_filterMap (f : Str → Option SubtitleCue) :
    ∀ (blocks : List Str) (acc : List SubtitleCue),
    blocks.foldl (fun cues b => cues ++ (f b).toList) acc =
      acc ++ blocks.filterMap f := by
  intro blocks
  induction blocks with
  | nil => intro acc; simp
  | cons b rest ih =>
    intro acc
    rw [List.foldl_cons, ih, List.filterMap_cons]
    cases hf : f b <;> simp [hf]

theorem foldl_push_eq_map {α : Type} (f : α → SubtitleCue) :
    ∀ (l : List α) (acc : List SubtitleCue),
    l.foldl (fun cues p => cues ++ [f p]) acc = acc ++ l.map f := by
  intro l
  induction l with
  | nil => intro acc; simp
  | cons p rest ih =>
    intro acc
    rw [List.foldl_cons, ih, List.map_cons]
    simp

theorem parseWebVTT_eq_filterMap (c : Str) :
    parseWebVTT c =
      (splitBlankRuns ((c.filter (fun x => x ≠ '\r')).length + 1)
        (c.filter (fun x => x ≠ '\r'))).filterMap webvttBlockCue := by
  simp [parseWebVTT, foldl_optPush_eq_filterMap]

theorem parseSRT_eq_filterMap (c : Str) :
    parseSRT c =
      (splitBlankRuns ((c.filter (fun x => x ≠ '\r')).length + 1)
        (c.filter (fun x => x ≠ '\r'))).filterMap srtBlockCue := by
  simp [parseSRT, foldl_optPush_eq_filterMap]

theorem parseYTT_eq_map (c : Str) :
    parseYTT c = (elemExtract 'p' c).map yttCueOf := by
  simp [parseYTT, foldl_push_eq_map]

theorem parseSRV3_eq_map (c : Str) :
    parseSRV3 c = (elemExtract 'p' c).map srv3CueOf := by
  simp [parseSRV3, foldl_push_eq_map]

/-- The flattened-then-trimmed text invariant, by construction, for the
HTML-like tokenizer. -/
theorem parseInlineStyledText_eq (raw : Str) :
    parseInlineStyledText raw =
      { text := trimStr (flattenLines (parseInlineStyledText raw).lines),
        lines := (parseInlineStyledText raw).lines } := by
  simp only [parseInlineStyledText]

theorem parseInlineStyledText_text (raw : Str) :
    (parseInlineStyledText raw).text =
      trimStr (flattenLines (parseInlineStyledText raw).lines) := by
  conv_lhs => rw [parseInlineStyledText_eq]

/-- The same invariant for the ASS tokenizer, using `trim_flatten_prune`
(the source computes `text` from the unpruned lines). -/
theorem parseASSDialogueText_text (t : Str) (base : SubtitleStyle) :
    (parseASSDialogueText t base).text =
      trimStr (flattenLines (parseASSDialogueText t base).lines) := by
  simp only [parseASSDialogueText]
  rw [trim_flatten_prune]

/- ## Helper lemmas: number parsing totality -/

theorem digit_not_ws {c : Char} (h : digitChar c = true) : wsChar c = false := by
  simp only [digitChar, Bool.and_eq_true, decide_eq_true_eq] at h
  simp only [wsChar, Bool.or_eq_false_iff, decide_eq_false_iff_not]
  refine ⟨⟨⟨⟨⟨⟨⟨?_, ?_⟩, ?_⟩, ?_⟩, ?_⟩, ?_⟩, ?_⟩, ?_⟩ <;>
    (intro he; subst he; revert h; decide)

theorem dropWhile_ws_digits (s : Str) (h : ∀ c ∈ s, digitChar c = true) :
    s.dropWhile wsChar = s := by
  cases s with
  | nil => rfl
  | cons a t =>
    rw [List.dropWhile_cons, digit_not_ws (h a (by simp))]
    simp

theorem trimStr_digits (s : Str) (h : ∀ c ∈ s, digitChar c = true) :
    trimStr s = s := by
  have hrev : ∀ c ∈ s.reverse, digitChar c = true := by
    intro c hc; exact h c (List.mem_reverse.1 hc)
  simp only [trimStr, trimRightStr, trimLeftStr]
  rw [dropWhile_ws_digits _ hrev, List.reverse_reverse, dropWhile_ws_digits _ h]

theorem takeWhile_digits (s : Str) (h : ∀ c ∈ s, digitChar c = true) :
    s.takeWhile digitChar = s := by
  induction s with
  | nil => rfl
  | cons a t ih =>
    rw [List.takeWhile_cons, h a (by simp)]
    simp [ih (fun c hc => h c (by simp [hc]))]

theorem dropWhile_digits (s : Str) (h : ∀ c ∈ s, digitChar c = true) :
    s.dropWhile digitChar = [] := by
  induction s with
  | nil => rfl
  | cons a t ih =>
    rw [List.dropWhile_cons, h a (by simp)]
    simp [ih (fun c hc => h c (by simp [hc]))]

/-- The `Number` of a non-empty all-digits string is that natural number. -/
theorem jsNumber_digits (s : Str) (h1 : s ≠ []) (h2 : ∀ c ∈ s, digitChar c = true) :
    jsNumber s = JSNum.num (natOfDigits s) := by
  cases s with
  | nil => exact absurd rfl h1
  | cons a t =>
    have ha := h2 a (by simp)
    have hp : a ≠ '+' := by intro he; subst he; revert ha; decide
    have hm : a ≠ '-' := by intro he; subst he; revert ha; decide
    have htake : (a :: t).takeWhile digitChar = a :: t := takeWhile_digits _ h2
    have hdrop : (a :: t).dropWhile digitChar = [] := dropWhile_digits _ h2
    simp only [jsNumber, trimStr_digits _ h2]
    rw [if_neg (by simp : ¬ (a :: t) = [])]
    simp only [parseSign, if_neg hp, if_neg hm]
    simp only [parseDecPrefix, htake, hdrop]
    simp [parseExpPart]

theorem parseMillisecondsString_ne_nan (v : Str) :
    parseMillisecondsString v ≠ JSNum.nan := by
  simp only [parseMillisecondsString]
  cases h : jsNumber v with
  | nan => simp
  | num q =>
    simp only [JSNum.div]
    rw [if_neg (by norm_num : ¬ (1000 : ℚ) = 0)]
    simp

theorem assTimeTryAt_props (s : Str) (g : Str × Str × Str × Str)
    (h : assTimeTryAt s = some g) :
    (g.1 ≠ [] ∧ ∀ c ∈ g.1, digitChar c = true) ∧
    (g.2.1 ≠ [] ∧ ∀ c ∈ g.2.1, digitChar c = true) ∧
    (g.2.2.1 ≠ [] ∧ ∀ c ∈ g.2.2.1, digitChar c = true) ∧
    (g.2.2.2 ≠ [] ∧ ∀ c ∈ g.2.2.2, digitChar c = true) := by
  simp only [assTimeTryAt] at h
  by_cases he : (s.takeWhile digitChar).isEmpty
  · simp [he] at h
  · rw [if_neg he] at h
    split at h
    · next a b c d e f rest heq =>
      split at h
      · next hdig =>
        simp only [Option.some.injEq] at h
        subst h
        simp only [Bool.and_eq_true] at hdig
        refine ⟨⟨?_, ?_⟩, ⟨by simp, ?_⟩, ⟨by simp, ?_⟩, ⟨by simp, ?_⟩⟩
        · simpa [List.isEmpty_iff] using he
        · intro c hc; exact List.mem_takeWhile_imp hc
        · intro c hc
          simp at hc
          rcases hc with rfl | rfl
          · exact hdig.1.1.1.1.1
          · exact hdig.1.1.1.1.2
        · intro c hc
          simp at hc
          rcases hc with rfl | rfl
          · exact hdig.1.1.1.2
          · exact hdig.1.1.2
        · intro c hc
          simp at hc
          rcases hc with rfl | rfl
          · exact hdig.1.2
          · exact hdig.2
      · exact absurd h (by simp)
    · next heq => exact absurd h (by simp)

theorem assTimeSearch_props (s : Str) (g : Str × Str × Str × Str)
    (h : assTimeSearch s = some g) :
    (g.1 ≠ [] ∧ ∀ c ∈ g.1, digitChar c = true) ∧
    (g.2.1 ≠ [] ∧ ∀ c ∈ g.2.1, digitChar c = true) ∧
    (g.2.2.1 ≠ [] ∧ ∀ c ∈ g.2.2.1, digitChar c = true) ∧
    (g.2.2.2 ≠ [] ∧ ∀ c ∈ g.2.2.2, digitChar c = true) := by
  induction s with
  | nil => simp [assTimeSearch] at h
  | cons c rest ih =>
    simp only [assTimeSearch] at h
    cases htry : assTimeTryAt (c :: rest) with
    | some g2 =>
      rw [htry] at h
      simp only [Option.some.injEq] at h
      subst h
      exact assTimeTryAt_props _ _ htry
    | none =>
      rw [htry] at h
      exact ih h

theorem parseASSTime_ne_nan (t : Str) : parseASSTime t ≠ JSNum.nan := by
  simp only [parseASSTime]
  cases h : assTimeSearch (trimStr t) with
  | none => simp
  | some g =>
    obtain ⟨g1, g2, g3, g4⟩ := g
    obtain ⟨hh, hm, hs, hcs⟩ := assTimeSearch_props _ _ h
    simp only at hh hm hs hcs
    simp only
    rw [jsNumber_digits _ hh.1 hh.2, jsNumber_digits _ hm.1 hm.2,
      jsNumber_digits _ hs.1 hs.2, jsNumber_digits _ hcs.1 hcs.2]
    simp only [JSNum.mul, JSNum.add, JSNum.div]
    rw [if_neg (by norm_num : ¬ (100 : ℚ) = 0)]
    simp [JSNum.add]

/- ## Helper lemmas: the style table (JMap) -/

theorem JMap.get?_set {α : Type} (m : JMap α) (k : Str) (v : α) (n : Str) :
    (m.set k v).get? n = if k = n then some v else m.get? n := by
  induction m with
  | nil => simp [JMap.set, JMap.get?]
  | cons p rest ih =>
    by_cases hk : p.1 = k
    · subst hk
      simp only [JMap.set, if_pos rfl, JMap.get?]
      by_cases hn : p.1 = n <;> simp [hn]
    · simp only [JMap.set, if_neg hk, JMap.get?, ih]
      by_cases hn : p.1 = n
      · subst hn
        rw [if_pos rfl, if_neg (fun he => hk he.symm), if_pos rfl]
      · rw [if_neg hn, if_neg hn]

theorem get?_foldl_set :
    ∀ (rows : List (Str × SubtitleStyle)) (m : JMap SubtitleStyle) (n : Str),
    ((rows.foldl (fun acc r => JMap.set acc r.1 r.2) m).get? n) =
      (match (rows.filter (fun r => r.1 = n)).getLast? with
        | some r => some r.2
        | none => m.get? n) := by
  intro rows
  induction rows with
  | nil => intro m n; simp
  | cons kv rest ih =>
    intro m n
    rw [List.foldl_cons, ih]
    by_cases hk : kv.1 = n
    · rw [List.filter_cons_of_pos (by simp [hk])]
      cases hf : rest.filter (fun r => r.1 = n) with
      | nil => simp [hf, JMap.get?_set, hk]
      | cons q qs =>
        obtain ⟨r, hr⟩ : ∃ r, (q :: qs).getLast? = some r :=
          ⟨(q :: qs).getLast (by simp), List.getLast?_eq_getLast _ (by simp)⟩
        rw [hr, List.getLast?_cons_cons, hr]
    · rw [List.filter_cons_of_neg (by simp [hk])]
      cases hf : rest.filter (fun r => r.1 = n) with
      | nil => simp [hf, JMap.get?_set, hk]
      | cons q qs =>
        obtain ⟨r, hr⟩ : ∃ r, (q :: qs).getLast? = some r :=
          ⟨(q :: qs).getLast (by simp), List.getLast?_eq_getLast _ (by simp)⟩
        rw [hr]

theorem parseASSStylesAux_eq_fold :
    ∀ (lines : List Str) (inSec : Bool) (fields : List Str) (m : JMap SubtitleStyle),
    parseASSStylesAux lines inSec fields m =
      (parseASSStyleRowsAux lines inSec fields m).foldl
        (fun acc r => JMap.set acc r.1 r.2) m := by
  intro lines
  induction lines with
  | nil => intro inSec fields m; rfl
  | cons line rest ih =>
    intro inSec fields m
    rw [parseASSStylesAux, parseASSStyleRowsAux]
    split_ifs <;> (try rw [List.foldl_cons]) <;> exact ih _ _ _

/-- The style table of `parseASSStyles`, characterised by the Style rows it
reads: the LAST row with a given name wins. -/
theorem parseASSStyles_last_wins (content : Str) (n : Str) :
    (parseASSStyles content).get? n =
      ((parseASSStyleRows content).filter (fun r => r.1 = n)).getLast?.map
        (fun r => r.2) := by
  rw [parseASSStyles, parseASSStyleRows, parseASSStylesAux_eq_fold, get?_foldl_set]
  cases ((parseASSStyleRowsAux ((splitOnChar '\n' content).map trimStr) false []
      JMap.empty).filter (fun r => r.1 = n)).getLast? with
  | none => rfl
  | some r => rfl

/- ## Helper lemmas: the ASS sort -/

theorem assCmpLe_total (a b : ASSEventLite) :
    assCmpLe a b = true ∨ assCmpLe b a = true := by
  unfold assCmpLe
  rcases ha : a.startTime with _ | x <;> rcases hb : b.startTime with _ | y <;> simp
  exact le_total x y

theorem assCmpLe_trans (a b c : ASSEventLite) (h1 : assCmpLe a b = true)
    (h2 : assCmpLe b c = true) : assCmpLe a c = true := by
  unfold assCmpLe at *
  rcases ha : a.startTime with _ | x <;> rcases hb : b.startTime with _ | y <;>
    rcases hc : c.startTime with _ | z <;>
    rw [ha, hb] at h1 <;> rw [hb, hc] at h2 <;> simp_all
  exact le_trans h1 h2


theorem mem_insertSorted (x y : ASSEventLite) (l : List ASSEventLite) :
    y ∈ insertSorted x l ↔ y = x ∨ y ∈ l := by
  induction l with
  | nil => simp [insertSorted]
  | cons a t ih =>
    rw [insertSorted]
    by_cases h : assCmpLe a x = true
    · rw [if_pos h]
      simp only [List.mem_cons, ih]
      tauto
    · rw [if_neg h]
      simp only [List.mem_cons]

theorem mem_sortAssEvents_aux (x : ASSEventLite) :
    ∀ (l acc : List ASSEventLite),
    (x ∈ l.foldl (fun acc y => insertSorted y acc) acc ↔ x ∈ acc ∨ x ∈ l) := by
  intro l
  induction l with
  | nil => intro acc; simp
  | cons a t ih =>
    intro acc
    rw [List.foldl_cons, ih]
    rw [mem_insertSorted]
    simp
    tauto

theorem mem_sortAssEvents (x : ASSEventLite) (l : List ASSEventLite) :
    x ∈ sortAssEvents l ↔ x ∈ l := by
  rw [sortAssEvents, mem_sortAssEvents_aux]
  simp

theorem insertSorted_pairwise (x : ASSEventLite) (l : List ASSEventLite)
    (h : l.Pairwise (fun a b => assCmpLe a b = true)) :
    (insertSorted x l).Pairwise (fun a b => assCmpLe a b = true) := by
  induction l with
  | nil => simp [insertSorted]
  | cons a t ih =>
    rcases List.pairwise_cons.1 h with ⟨ha, ht⟩
    by_cases hc : assCmpLe a x = true
    · rw [insertSorted, if_pos hc]
      refine List.pairwise_cons.2 ⟨?_, ih ht⟩
      intro b hb
      rcases (mem_insertSorted x b t).1 hb with rfl | hbt
      · exact hc
      · exact ha b hbt
    · rw [insertSorted, if_neg hc]
      have hxa : assCmpLe x a = true := by
        rcases assCmpLe_total a x with h1 | h1
        · exact absurd h1 hc
        · exact h1
      refine List.pairwise_cons.2 ⟨?_, h⟩
      intro b hb
      rcases List.mem_cons.1 hb with rfl | hbt
      · exact hxa
      · exact assCmpLe_trans x a b hxa (ha b hbt)

theorem sortAssEvents_pairwise_aux :
    ∀ (l acc : List ASSEventLite),
    acc.Pairwise (fun a b => assCmpLe a b = true) →
    (l.foldl (fun acc y => insertSorted y acc) acc).Pairwise
      (fun a b => assCmpLe a b = true) := by
  intro l
  induction l with
  | nil => intro acc h; simpa using h
  | cons a t ih =>
    intro acc h
    rw [List.foldl_cons]
    exact ih _ (insertSorted_pairwise a acc h)

theorem sortAssEvents_pairwise (l : List ASSEventLite) :
    (sortAssEvents l).Pairwise (fun a b => assCmpLe a b = true) :=
  sortAssEvents_pairwise_aux l [] (by simp)

/- ## Helper lemmas: per-cue shape facts -/

set_option maxHeartbeats 1600000 in
theorem webvttBlockCue_text (b : Str) (cue : SubtitleCue)
    (h : webvttBlockCue b = some cue) :
    cue.text = trimStr (flattenLines cue.lines) := by
  simp only [webvttBlockCue] at h
  split at h
  · exact absurd h (by simp)
  · split at h
    · exact absurd h (by simp)
    · split at h
      · exact absurd h (by simp)
      · rw [Option.some.injEq] at h
        subst h
        dsimp only
        exact parseInlineStyledText_text _

set_option maxHeartbeats 1600000 in
theorem srtBlockCue_text (b : Str) (cue : SubtitleCue)
    (h : srtBlockCue b = some cue) :
    cue.text = trimStr (flattenLines cue.lines) := by
  simp only [srtBlockCue] at h
  split at h
  · exact absurd h (by simp)
  · split at h
    · exact absurd h (by simp)
    · split at h
      · exact absurd h (by simp)
      · rw [Option.some.injEq] at h
        subst h
        dsimp only
        exact parseInlineStyledText_text _

theorem yttCueOf_text (p : Str × Str) :
    (yttCueOf p).text = trimStr (flattenLines (yttCueOf p).lines) := by
  simp only [yttCueOf]
  exact parseInlineStyledText_text _

set_option maxHeartbeats 1600000 in
theorem srv3CueOf_text (p : Str × Str) :
    (srv3CueOf p).text = trimStr (flattenLines (srv3CueOf p).lines) ∨
    (∃ segs, (srv3CueOf p).lines = [segs] ∧
      (srv3CueOf p).text =
        trimStr (List.intercalate ([' ']) (segs.map (fun s => s.text)))) := by
  by_cases hs : ((elemExtract 's' p.2).map srv3SpanSeg).isEmpty
  · left
    simp only [srv3CueOf, hs, Bool.not_true, Bool.false_eq_true, if_false]
    exact parseInlineStyledText_text _
  · right
    refine ⟨(elemExtract 's' p.2).map srv3SpanSeg, ?_, ?_⟩ <;>
      simp only [srv3CueOf, hs, Bool.not_false, Bool.not_eq_true, if_true,
        Bool.true_eq_false, Bool.not_true]

theorem assCueOf_text (styleMap : JMap SubtitleStyle) (event : ASSEventLite) :
    (assCueOf styleMap event).text =
      trimStr (flattenLines (assCueOf styleMap event).lines) := by
  simp only [assCueOf]
  exact parseASSDialogueText_text _ _

/- ## Claims -/

/-- C2 (amended): `parseASSTime` and `parseMillisecondsString` always return
a number (never NaN, `0` on unparsable input), and `parseFlexibleTimeString`
returns `0` when its input is a single unparsable part — but on 2- or
3-part colon inputs with non-numeric parts it returns NaN (the `|| 0` guard
exists only on the single-part branch). -/
theorem C2_time_parsers_total_except_flexible :
    (∀ s, parseASSTime s ≠ JSNum.nan) ∧
    (∀ s, parseMillisecondsString s ≠ JSNum.nan) ∧
    (∀ s,
      (splitOnChar ':' ((replaceFirst ([',']) (['.']) s).takeWhile
        (fun c => !wsChar c))).length ≠ 3 →
      (splitOnChar ':' ((replaceFirst ([',']) (['.']) s).takeWhile
        (fun c => !wsChar c))).length ≠ 2 →
      jsNumber ((replaceFirst ([',']) (['.']) s).takeWhile (fun c => !wsChar c)) =
        JSNum.nan →
      parseFlexibleTimeString s = JSNum.num 0) := by
  refine ⟨parseASSTime_ne_nan, parseMillisecondsString_ne_nan, ?_⟩
  intro s h3 h2 hn
  simp only [parseFlexibleTimeString, List.length_map]
  rw [if_neg h3, if_neg h2, hn]
  rfl

/-- Witness for C2: concrete unparsable inputs. -/
theorem C2_time_parsers_witness :
    parseFlexibleTimeString (("garbage").toList) = JSNum.num 0 ∧
    parseASSTime (("nonsense").toList) ≠ JSNum.nan :=
  ⟨C2_time_parsers_total_except_flexible.2.2 (("garbage").toList)
      (by decide) (by decide) (by decide),
    C2_time_parsers_total_except_flexible.1 (("nonsense").toList)⟩

/-- Counterexample for C2 as stated: a 3-part colon-separated string with
non-numeric parts makes `parseFlexibleTimeString` return NaN, not 0. -/
theorem C2_counterexample :
    parseFlexibleTimeString (("a:b:c").toList) = JSNum.nan := by decide

/-- C5 (amended): on duplicate Style names the table maps the name to the
attributes of the LAST such row (Map.set overwrites), not the first. -/
theorem C5_duplicate_style_names_last_wins (content : Str) (n : Str) :
    (parseASSStyles content).get? n =
      ((parseASSStyleRows content).filter (fun r => r.1 = n)).getLast?.map
        (fun r => r.2) :=
  parseASSStyles_last_wins content n

/-- Counterexample for C5 as stated: with two `Style: A,...` rows the table
holds the second row's fontsize (20px), not the first row's (10px). -/
theorem C5_counterexample :
    ((parseASSStyles (("[Script Info]\n[V4+ Styles]\nFormat: Name, Fontsize\nStyle: A,10\nStyle: A,20").toList)).get?
      (("A").toList)).map (fun st => st.fontSize) = some (some (("20px").toList)) ∧
    some (some (("20px").toList)) ≠ some (some (("10px").toList)) := by decide

/-- C6 (amended): the ASS colour converter on `"&H0000FF&"` returns
`"#FF0000"` — the BGR→RGB byte swap preserving the input's letter case —
not the lower-case `"#ff0000"`. -/
theorem C6_ass_color_bgr_swap :
    assColorToCss (some (("&H0000FF&").toList)) = some (("#FF0000").toList) := by
  decide

/-- Counterexample for C6 as stated: the returned string is not the
lower-case `"#ff0000"`. -/
theorem C6_counterexample :
    assColorToCss (some (("&H0000FF&").toList)) ≠ some (("#ff0000").toList) := by
  decide

/-- C8 (amended): in the parse path used by `parseSubtitlesFromString`, a
Style row's fontSize is `toPx` of the raw fontsize field: a missing or
unparsable field leaves `fontSize` unset (there is no `20px` default on
this path), and a numeric field `n` is recorded as `"{n}px"`. -/
theorem C8_fontsize_no_default_on_parse_path :
    (∀ values fields, (styleOfRow values fields).fontSize =
      toPx (readField values fields (("fontsize").toList))) ∧
    toPx none = none ∧
    (∀ v, jsNumber v = JSNum.nan → toPx (some v) = none) ∧
    (∀ v q, v ≠ [] → jsNumber v = JSNum.num q →
      toPx (some v) = some (numToStr (JSNum.num q) ++ ("px").toList)) := by
  refine ⟨fun values fields => rfl, rfl, ?_, ?_⟩
  · intro v hn
    have hne : v ≠ [] := by
      intro he
      subst he
      exact absurd hn (by decide)
    simp only [toPx, List.isEmpty_eq_true, if_neg hne, hn]
  · intro v q hne hq
    simp only [toPx, List.isEmpty_eq_true, if_neg hne, hq]

/-- Witness for C8: concrete fields. -/
theorem C8_fontsize_witness :
    toPx (some (("abc").toList)) = none ∧
    toPx (some (("20").toList)) = some (("20px").toList) := by
  refine ⟨C8_fontsize_no_default_on_parse_path.2.2.1 (("abc").toList) (by decide), ?_⟩
  have h := C8_fontsize_no_default_on_parse_path.2.2.2 (("20").toList) 20
    (by decide) (by decide)
  rw [h]
  decide

/-- Counterexample for C8 as stated: a Style row whose fontsize is the
unparsable `"abc"` yields a table entry with NO fontSize, not `"20px"`. -/
theorem C8_counterexample :
    ((parseASSStyles (("[Script Info]\n[V4+ Styles]\nFormat: Name, Fontsize\nStyle: A,abc").toList)).get?
      (("A").toList)).map (fun st => st.fontSize) = some none ∧
    some (none : Option Str) ≠ some (some (("20px").toList)) := by decide

/-- C1 (amended): for every cue from the WebVTT, SRT, YTT and ASS paths
(and SRV3 cues without `<s>` spans), `text` equals the flattening of
`lines` with leading/trailing whitespace trimmed (segments concatenated
within a line, lines joined by a newline); SRV3 cues built from `<s>`
spans instead join the span texts with a single space (and trim), which
differs from the flattening when there are two or more spans. -/
theorem C1_text_is_trimmed_flattening :
    (∀ c cue, cue ∈ parseWebVTT c → cue.text = trimStr (flattenLines cue.lines)) ∧
    (∀ c cue, cue ∈ parseSRT c → cue.text = trimStr (flattenLines cue.lines)) ∧
    (∀ c cue, cue ∈ parseYTT c → cue.text = trimStr (flattenLines cue.lines)) ∧
    (∀ c cue, cue ∈ parseASSWithStyles c →
      cue.text = trimStr (flattenLines cue.lines)) ∧
    (∀ c cue, cue ∈ parseSRV3 c →
      cue.text = trimStr (flattenLines cue.lines) ∨
      ∃ segs, cue.lines = [segs] ∧
        cue.text = trimStr (List.intercalate ([' ']) (segs.map (fun s => s.text)))) := by
  refine ⟨?_, ?_, ?_, ?_, ?_⟩
  · intro c cue h
    rw [parseWebVTT_eq_filterMap] at h
    obtain ⟨b, _, hf⟩ := List.mem_filterMap.1 h
    exact webvttBlockCue_text b cue hf
  · intro c cue h
    rw [parseSRT_eq_filterMap] at h
    obtain ⟨b, _, hf⟩ := List.mem_filterMap.1 h
    exact srtBlockCue_text b cue hf
  · intro c cue h
    rw [parseYTT_eq_map] at h
    obtain ⟨p, _, rfl⟩ := List.mem_map.1 h
    exact yttCueOf_text p
  · intro c cue h
    simp only [parseASSWithStyles] at h
    obtain ⟨e, _, rfl⟩ := List.mem_map.1 h
    exact assCueOf_text _ e
  · intro c cue h
    rw [parseSRV3_eq_map] at h
    obtain ⟨p, _, rfl⟩ := List.mem_map.1 h
    exact srv3CueOf_text p

/-- Witness for C1: the single cue of a concrete WebVTT document. -/
theorem C1_text_witness :
    ({ startTime := JSNum.num 1, endTime := JSNum.num 4,
       text := ("Hello").toList,
       lines := [[{ text := ("Hello").toList, style := some DEFAULT_STYLE }]] } :
      SubtitleCue).text =
    trimStr (flattenLines
      ({ startTime := JSNum.num 1, endTime := JSNum.num 4,
         text := ("Hello").toList,
         lines := [[{ text := ("Hello").toList, style := some DEFAULT_STYLE }]] } :
        SubtitleCue).lines) :=
  C1_text_is_trimmed_flattening.1
    (("WEBVTT\n\n00:00:01.000 --> 00:00:04.000\nHello").toList) _ (by decide)

/-- Counterexample for C1 as stated: an SRV3 document with two spans yields
a cue whose `text` is `"a b"` (space-joined) while its `lines` flatten to
`"ab"`. -/
theorem C1_counterexample :
    (parseSubtitlesFromString
      (("<transcript><p t=\"0\" d=\"1000\"><s>a</s><s>b</s></p></transcript>").toList)
      []).map (fun c => (c.text, flattenLines c.lines)) =
      [((("a b").toList), (("ab").toList))] ∧
    (("a b").toList) ≠ (("ab").toList) := by decide

theorem parseASSEventsAux_start_ne_nan :
    ∀ (lines : List Str) (b : Bool) (f : List Str) (e : ASSEventLite),
    e ∈ parseASSEventsAux lines b f → e.startTime ≠ JSNum.nan := by
  intro lines
  induction lines with
  | nil => intro b f e h; simp [parseASSEventsAux] at h
  | cons line rest ih =>
    intro b f e h
    rw [parseASSEventsAux] at h
    split_ifs at h
    · exact ih _ _ _ h
    · exact ih _ _ _ h
    · exact ih _ _ _ h
    · exact ih _ _ _ h
    · rcases List.mem_cons.1 h with rfl | hm
      · exact parseASSTime_ne_nan _
      · exact ih _ _ _ hm

/-- C3 (amended): the ASS cue sequence is ascending by `startTime` in the
non-strict sense (cues with equal start times both appear, in stable
order); the WebVTT/SRT outputs are exactly the per-block cues of the
blank-line-separated blocks in document order, and the YTT/SRV3 outputs
are exactly the per-`<p>`-element cues in document order — no re-sorting
anywhere. -/
theorem C3_ass_sorted_others_document_order :
    (∀ c, (parseASSWithStyles c).Pairwise
      (fun a b => JSNum.leb a.startTime b.startTime = true)) ∧
    (∀ c, parseWebVTT c =
      (splitBlankRuns ((c.filter (fun x => x ≠ '\r')).length + 1)
        (c.filter (fun x => x ≠ '\r'))).filterMap webvttBlockCue) ∧
    (∀ c, parseSRT c =
      (splitBlankRuns ((c.filter (fun x => x ≠ '\r')).length + 1)
        (c.filter (fun x => x ≠ '\r'))).filterMap srtBlockCue) ∧
    (∀ c, parseYTT c = (elemExtract 'p' c).map yttCueOf) ∧
    (∀ c, parseSRV3 c = (elemExtract 'p' c).map srv3CueOf) := by
  refine ⟨?_, parseWebVTT_eq_filterMap, parseSRT_eq_filterMap,
    parseYTT_eq_map, parseSRV3_eq_map⟩
  intro c
  simp only [parseASSWithStyles]
  rw [List.pairwise_map]
  have hp := sortAssEvents_pairwise (parseASSEvents c)
  refine List.Pairwise.imp_of_mem ?_ hp
  intro a b ha hb hr
  have hna : a.startTime ≠ JSNum.nan :=
    parseASSEventsAux_start_ne_nan _ _ _ a ((mem_sortAssEvents a _).1 ha)
  have hnb : b.startTime ≠ JSNum.nan :=
    parseASSEventsAux_start_ne_nan _ _ _ b ((mem_sortAssEvents b _).1 hb)
  show JSNum.leb (assCueOf (parseASSStyles c) a).startTime
      (assCueOf (parseASSStyles c) b).startTime = true
  unfold assCmpLe at hr
  rcases haT : a.startTime with _ | x
  · exact absurd haT hna
  · rcases hbT : b.startTime with _ | y
    · exact absurd hbT hnb
    · rw [haT, hbT] at hr
      simp only [assCueOf]
      rw [haT, hbT]
      simpa [JSNum.leb] using hr

/-- Counterexample for C3 as stated: two ASS events with equal start times
both appear (the second immediately after the first), so the output is not
strictly ascending by `startTime`. -/
theorem C3_counterexample :
    (parseASSWithStyles (("[Script Info]\n[Events]\nFormat: Start, End, Text\nDialogue: 0:00:01.00,0:00:02.00,A\nDialogue: 0:00:01.00,0:00:02.00,B").toList)).map
      (fun c => c.startTime) = [JSNum.num 1, JSNum.num 1] ∧
    JSNum.ltb (JSNum.num 1) (JSNum.num 1) = false := by
  decide

/-- C4 (amended): in the ASS path of `parseSubtitlesFromString`, an event
whose style name is absent from the table gets the hardcoded built-in
`DEFAULT_STYLE` as its base style — the table's `"Default"` entry (and the
first-entry fallback) are not consulted on this path. -/
theorem C4_missing_style_uses_builtin_default :
    ∀ (content : Str) (e : ASSEventLite), e ∈ parseASSEvents content →
    (parseASSStyles content).get? e.style = none →
    assCueOf (parseASSStyles content) e ∈ parseASSWithStyles content ∧
    (assCueOf (parseASSStyles content) e).lines =
      (parseASSDialogueText e.text DEFAULT_STYLE).lines ∧
    (assCueOf (parseASSStyles content) e).text =
      (parseASSDialogueText e.text DEFAULT_STYLE).text := by
  intro content e hmem hmiss
  refine ⟨?_, ?_, ?_⟩
  · simp only [parseASSWithStyles]
    exact List.mem_map_of_mem _ ((mem_sortAssEvents e _).2 hmem)
  · simp only [assCueOf, hmiss, Option.getD_none]
  · simp only [assCueOf, hmiss, Option.getD_none]

/-- Witness for C4: a concrete document whose event names the absent style
`Foo` while the table holds a `Default` entry. -/
theorem C4_missing_style_witness :
    assCueOf
      (parseASSStyles (("[Script Info]\n[V4+ Styles]\nFormat: Name, PrimaryColour\nStyle: Default,&H0000FF&\n[Events]\nFormat: Start, End, Style, Text\nDialogue: 0:00:01.00,0:00:02.00,Foo,Hi").toList))
      { startTime := JSNum.num 1, endTime := JSNum.num 2,
        style := ("Foo").toList, text := ("Hi").toList } ∈
      parseASSWithStyles (("[Script Info]\n[V4+ Styles]\nFormat: Name, PrimaryColour\nStyle: Default,&H0000FF&\n[Events]\nFormat: Start, End, Style, Text\nDialogue: 0:00:01.00,0:00:02.00,Foo,Hi").toList) ∧
    (assCueOf
      (parseASSStyles (("[Script Info]\n[V4+ Styles]\nFormat: Name, PrimaryColour\nStyle: Default,&H0000FF&\n[Events]\nFormat: Start, End, Style, Text\nDialogue: 0:00:01.00,0:00:02.00,Foo,Hi").toList))
      { startTime := JSNum.num 1, endTime := JSNum.num 2,
        style := ("Foo").toList, text := ("Hi").toList }).lines =
      (parseASSDialogueText (("Hi").toList) DEFAULT_STYLE).lines ∧
    (assCueOf
      (parseASSStyles (("[Script Info]\n[V4+ Styles]\nFormat: Name, PrimaryColour\nStyle: Default,&H0000FF&\n[Events]\nFormat: Start, End, Style, Text\nDialogue: 0:00:01.00,0:00:02.00,Foo,Hi").toList))
      { startTime := JSNum.num 1, endTime := JSNum.num 2,
        style := ("Foo").toList, text := ("Hi").toList }).text =
      (parseASSDialogueText (("Hi").toList) DEFAULT_STYLE).text :=
  C4_missing_style_uses_builtin_default _ _ (by decide) (by decide)

/-- Counterexample for C4 as stated: the table's `Default` entry (red) is
present, yet the cue for the missing style `Foo` carries the colourless
built-in `DEFAULT_STYLE`. -/
theorem C4_counterexample :
    ((parseASSStyles (("[Script Info]\n[V4+ Styles]\nFormat: Name, PrimaryColour\nStyle: Default,&H0000FF&\n[Events]\nFormat: Start, End, Style, Text\nDialogue: 0:00:01.00,0:00:02.00,Foo,Hi").toList)).get?
      (("Default").toList)).map (fun st => st.color) =
      some (some (("#FF0000").toList)) ∧
    (parseASSWithStyles (("[Script Info]\n[V4+ Styles]\nFormat: Name, PrimaryColour\nStyle: Default,&H0000FF&\n[Events]\nFormat: Start, End, Style, Text\nDialogue: 0:00:01.00,0:00:02.00,Foo,Hi").toList)).map
      (fun c => c.lines.map (fun l => l.map (fun s => s.style))) =
      [[[some DEFAULT_STYLE]]] ∧
    DEFAULT_STYLE.color = none := by decide

theorem jsnum_zero_le_add (x y : JSNum)
    (hx : JSNum.leb (JSNum.num 0) x = true)
    (hy : JSNum.leb (JSNum.num 0) y = true) :
    JSNum.leb x (x.add y) = true := by
  rcases x with _ | a
  · exact absurd hx (by simp [JSNum.leb])
  · rcases y with _ | b
    · exact absurd hy (by simp [JSNum.leb])
    · simp only [JSNum.leb, decide_eq_true_eq] at hx hy
      simp only [JSNum.add, JSNum.leb, decide_eq_true_eq, qadd_eq]
      linarith

theorem srv3CueOf_times (p : Str × Str) :
    (srv3CueOf p).startTime =
      parseMillisecondsString
        (((parseXmlAttributes p.1).get? (("t").toList)).getD (("0").toList)) ∧
    (srv3CueOf p).endTime =
      ((srv3CueOf p).startTime).add
        (parseMillisecondsString
          (((parseXmlAttributes p.1).get? (("d").toList)).getD (("0").toList))) := by
  by_cases hs : ((elemExtract 's' p.2).map srv3SpanSeg).isEmpty <;>
    constructor <;> simp [srv3CueOf, hs]

/-- C7 (amended): YTT and SRV3 compute `endTime = startTime + duration`, so
whenever the `t` and `d` attributes parse to non-negative values the cue
satisfies `0 ≤ startTime ≤ endTime`; WebVTT/SRT cue times are copied from
the document unclamped, so a block declaring its end before its start
violates `startTime ≤ endTime` (see the counterexample). -/
theorem C7_ytt_srv3_time_bounds :
    ∀ (c : Str) (cue : SubtitleCue),
    (cue ∈ parseYTT c ∨ cue ∈ parseSRV3 c) →
    (∀ p ∈ elemExtract 'p' c,
      JSNum.leb (JSNum.num 0) (parseMillisecondsString
        (((parseXmlAttributes p.1).get? (("t").toList)).getD (("0").toList))) = true ∧
      JSNum.leb (JSNum.num 0) (parseMillisecondsString
        (((parseXmlAttributes p.1).get? (("d").toList)).getD (("0").toList))) = true) →
    JSNum.leb (JSNum.num 0) cue.startTime = true ∧
    JSNum.leb cue.startTime cue.endTime = true := by
  intro c cue hmem hattrs
  rcases hmem with h | h
  · rw [parseYTT_eq_map] at h
    obtain ⟨p, hp, rfl⟩ := List.mem_map.1 h
    obtain ⟨ht, hd⟩ := hattrs p hp
    exact ⟨ht, jsnum_zero_le_add _ _ ht hd⟩
  · rw [parseSRV3_eq_map] at h
    obtain ⟨p, hp, rfl⟩ := List.mem_map.1 h
    obtain ⟨ht, hd⟩ := hattrs p hp
    obtain ⟨hT, hE⟩ := srv3CueOf_times p
    refine ⟨by rw [hT]; exact ht, ?_⟩
    rw [hE, hT]
    exact jsnum_zero_le_add _ _ ht hd

/-- Witness for C7: a concrete YTT document with `t="1000" d="2000"`. -/
theorem C7_time_bounds_witness :
    JSNum.leb (JSNum.num 0)
      ({ startTime := JSNum.num 1, endTime := JSNum.num 3,
         text := ("Hi").toList,
         lines := [[{ text := ("Hi").toList, style := some DEFAULT_STYLE }]] } :
        SubtitleCue).startTime = true ∧
    JSNum.leb
      ({ startTime := JSNum.num 1, endTime := JSNum.num 3,
         text := ("Hi").toList,
         lines := [[{ text := ("Hi").toList, style := some DEFAULT_STYLE }]] } :
        SubtitleCue).startTime
      ({ startTime := JSNum.num 1, endTime := JSNum.num 3,
         text := ("Hi").toList,
         lines := [[{ text := ("Hi").toList, style := some DEFAULT_STYLE }]] } :
        SubtitleCue).endTime = true :=
  C7_ytt_srv3_time_bounds
    (("<timedtext><p t=\"1000\" d=\"2000\">Hi</p></timedtext>").toList) _
    (Or.inl (by decide)) (by decide)

/-- Counterexample for C7 as stated: a WebVTT block declaring `end` before
`start` yields a cue with `startTime > endTime`. -/
theorem C7_counterexample :
    (parseWebVTT (("WEBVTT\n\n00:00:05.000 --> 00:00:01.000\nHi").toList)).map
      (fun c => (c.startTime, c.endTime)) = [(JSNum.num 5, JSNum.num 1)] ∧
    JSNum.leb (JSNum.num 5) (JSNum.num 1) = false := by decide

/-- C9 (confirmed): `getCurrentSubtitleCue` returns the first cue in list
order whose time range contains `t` (both bounds inclusive), `none` when no
cue matches; overlapping cues are left alone and the first match wins. -/
theorem C9_current_cue_first_inclusive_match :
    ∀ (cues : List SubtitleCue) (t : JSNum),
    (getCurrentSubtitleCue cues t = none ↔
      ∀ c ∈ cues, ¬ (JSNum.geb t c.startTime && JSNum.leb t c.endTime) = true) ∧
    (∀ cue, getCurrentSubtitleCue cues t = some cue ↔
      (JSNum.geb t cue.startTime && JSNum.leb t cue.endTime) = true ∧
      ∃ l1 l2, cues = l1 ++ cue :: l2 ∧
        ∀ c ∈ l1, ¬ (JSNum.geb t c.startTime && JSNum.leb t c.endTime) = true) := by
  intro cues t
  constructor
  · simp only [getCurrentSubtitleCue, List.find?_eq_none]
  · intro cue
    rw [getCurrentSubtitleCue, List.find?_eq_some]
    simp [imp_iff_not_or]

/-- Witness for C9: the first of two overlapping cues wins at `t = 1`. -/
theorem C9_current_cue_witness :
    getCurrentSubtitleCue
      [{ startTime := JSNum.num 0, endTime := JSNum.num 2, text := ("a").toList },
       { startTime := JSNum.num 1, endTime := JSNum.num 3, text := ("b").toList }]
      (JSNum.num 1) =
      some { startTime := JSNum.num 0, endTime := JSNum.num 2, text := ("a").toList } :=
  ((C9_current_cue_first_inclusive_match
      [{ startTime := JSNum.num 0, endTime := JSNum.num 2, text := ("a").toList },
       { startTime := JSNum.num 1, endTime := JSNum.num 3, text := ("b").toList }]
      (JSNum.num 1)).2
    { startTime := JSNum.num 0, endTime := JSNum.num 2, text := ("a").toList }).2
    ⟨by decide, [],
      [{ startTime := JSNum.num 1, endTime := JSNum.num 3, text := ("b").toList }],
      rfl, by decide⟩

/- ## C10 machinery: whitespace-only text yields no content -/

theorem ws_not_lt {c : Char} (h : wsChar c = true) : c ≠ '<' := by
  intro he; subst he; revert h; decide

theorem ws_not_brace {c : Char} (h : wsChar c = true) : c ≠ '{' := by
  intro he; subst he; revert h; decide

theorem brTryAt_none_of_ws (s : Str) (h : ∀ c ∈ s, wsChar c = true) :
    brTryAt s = none := by
  match s with
  | [] => rfl
  | [_] => rfl
  | [_, _] => rfl
  | a :: b :: c :: rest =>
    have ha : a ≠ '<' := ws_not_lt (h a (by simp))
    rw [brTryAt]
    rw [if_neg (by simp [ha])]

theorem assBlockTryAt_none_of_ws (s : Str) (h : ∀ c ∈ s, wsChar c = true) :
    assBlockTryAt s = none := by
  match s with
  | [] => rfl
  | [_] => rfl
  | a :: b :: rest =>
    have ha : a ≠ '{' := ws_not_brace (h a (by simp))
    rw [assBlockTryAt]
    rw [if_neg (by simp [ha])]

theorem brReplaceAll_of_ws :
    ∀ (fuel : ℕ) (s : Str), (∀ c ∈ s, wsChar c = true) →
    brReplaceAll fuel s = s := by
  intro fuel
  induction fuel with
  | zero => intro s _; rfl
  | succ n ih =>
    intro s h
    cases s with
    | nil => rfl
    | cons a rest =>
      rw [brReplaceAll, brTryAt_none_of_ws _ h]
      rw [ih rest (fun c hc => h c (by simp [hc]))]

theorem stripAssBlocks_of_ws :
    ∀ (fuel : ℕ) (s : Str), (∀ c ∈ s, wsChar c = true) →
    stripAssBlocks fuel s = s := by
  intro fuel
  induction fuel with
  | zero => intro s _; rfl
  | succ n ih =>
    intro s h
    cases s with
    | nil => rfl
    | cons a rest =>
      rw [stripAssBlocks, assBlockTryAt_none_of_ws _ h]
      rw [ih rest (fun c hc => h c (by simp [hc]))]

theorem joinNl_of_ws :
    ∀ (pieces : List Str), (∀ p ∈ pieces, ∀ c ∈ p, wsChar c = true) →
    ∀ c ∈ joinNl pieces, wsChar c = true := by
  intro pieces
  induction pieces with
  | nil => intro _ c hc; simp [joinNl] at hc
  | cons a rest ih =>
    intro h c hc
    cases rest with
    | nil => exact h a (by simp) c (by simpa [joinNl] using hc)
    | cons b r2 =>
      rw [joinNl_cons_cons] at hc
      rcases List.mem_append.1 hc with hin | hin
      · exact h a (by simp) c hin
      · rcases List.mem_cons.1 hin with rfl | hin2
        · decide
        · exact ih (fun p hp => h p (by simp [hp])) c hin2

/-- The HTML-like tokenizer maps whitespace-only input to the empty cue
text with no lines. -/
theorem parseInlineStyledText_of_ws (s : Str) (h : ∀ c ∈ s, wsChar c = true) :
    parseInlineStyledText s = { text := [], lines := [] } := by
  simp only [parseInlineStyledText]
  rw [brReplaceAll_of_ws _ _ h, stripAssBlocks_of_ws _ _ h,
    (trimStr_eq_nil_iff s).2 h]
  rfl

/-- C10 (confirmed): a WebVTT block with a valid `-->` time line but only
blank lines after it produces no cue, while the analogous SRT block (no
emptiness guard) produces a cue whose text is empty. -/
theorem C10_empty_text_blocks :
    (∀ (block : Str) (i : ℕ) (g1 g2 : Str),
      List.findIdx? (fun l => strIncludes (("-->").toList) l)
        ((splitOnChar '\n' block).map trimStr) = some i →
      arrowSearch (((splitOnChar '\n' block).map trimStr).getD i []) =
        some (g1, g2) →
      (∀ l ∈ ((splitOnChar '\n' block).map trimStr).drop (i + 1), l = []) →
      webvttBlockCue block = none) ∧
    (∀ (block : Str) (tl g1 g2 : Str),
      ¬ (splitOnChar '\n' (trimStr block)).length < 2 →
      (splitOnChar '\n' (trimStr block)).find?
        (fun l => strIncludes (("-->").toList) l) = some tl →
      arrowSearch tl = some (g1, g2) →
      (∀ l ∈ (splitOnChar '\n' (trimStr block)).drop
        ((List.findIdx? (fun l => l = tl)
          (splitOnChar '\n' (trimStr block))).getD 0 + 1), trimStr l = []) →
      (srtBlockCue block).map (fun c => c.text) = some []) := by
  constructor
  · intro block i g1 g2 hidx harrow hempty
    simp only [webvttBlockCue]
    rw [hidx]
    dsimp only
    have hf : (((splitOnChar '\n' block).map trimStr).drop (i + 1)).filter
        (fun l => !l.isEmpty) = [] := by
      rw [List.filter_eq_nil_iff]
      intro l hl
      rw [hempty l hl]
      decide
    rw [hf]
    rfl
  · intro block tl g1 g2 hlen hfind harrow hws
    simp only [srtBlockCue]
    rw [if_neg hlen, hfind]
    dsimp only
    rw [harrow]
    dsimp only
    have hwstext : ∀ c ∈ joinNl ((splitOnChar '\n' (trimStr block)).drop
        ((List.findIdx? (fun l => l = tl)
          (splitOnChar '\n' (trimStr block))).getD 0 + 1)), wsChar c = true := by
      apply joinNl_of_ws
      intro p hp
      exact (trimStr_eq_nil_iff p).1 (hws p hp)
    rw [parseInlineStyledText_of_ws _ hwstext]
    rfl

/-- Witness for C10: a concrete blank-bodied WebVTT block is skipped; the
analogous SRT block yields an empty-text cue. -/
theorem C10_empty_text_witness :
    webvttBlockCue (("00:00:01.000 --> 00:00:02.000\n   ").toList) = none ∧
    (srtBlockCue (("1\n00:00:01,000 --> 00:00:02,000\n   ").toList)).map
      (fun c => c.text) = some [] := by
  constructor
  · exact C10_empty_text_blocks.1 (("00:00:01.000 --> 00:00:02.000\n   ").toList)
      0 (("00:00:01.000").toList) (("00:00:02.000").toList)
      (by decide) (by decide) (by decide)
  · exact C10_empty_text_blocks.2 (("1\n00:00:01,000 --> 00:00:02,000\n   ").toList)
      (("00:00:01,000 --> 00:00:02,000").toList)
      (("00:00:01,000").toList) (("00:00:02,000").toList)
      (by decide) (by decide) (by decide) (by decide)
